import Mathlib

/-!
Verification development for the PVEScriptsLocalCustomiser import pipeline.

The definitions below are a shallow embedding of the TypeScript sources:
  * `src/api/custom-import-router.ts` (tRPC router: URL parsing, manifest
    probing/generation, install-script generation, import/preview orchestration,
    registry upsert),
  * the integration library (`addImport`/`removeImport`/`slugify`/
    `detectProjectType` of the `pvescripts` lib file).

Network calls and file-system calls are modelled by explicit environment
records (`ProbeOutcome`, `ImportEnv`) and an explicit `Store`; each fallible
step of the orchestrators is given an outcome in the environment, and a step
either succeeds completely or fails leaving its own effect unapplied
(step-atomic semantics). Strings are Lean `String`s; JavaScript string
operations are modelled on the underlying `List Char`.
-/

/-! ### Data model (interfaces of custom-import-router.ts and the lib) -/

/-- `resources` record of an install method (custom-import-router.ts lines 73-79). -/
structure ResourceSpec where
  cpu : Nat
  ram : Nat
  hdd : Nat
  os : String
  version : String
deriving DecidableEq

/-- One entry of `install_methods` (custom-import-router.ts lines 70-80). -/
structure InstallMethod where
  type : String
  script : String
  resources : ResourceSpec
deriving DecidableEq

/-- `ManifestSource` (custom-import-router.ts lines 47-54). -/
structure ManifestSource where
  type : String
  owner : String
  repo : String
  branch : String
  project_type : String
  install_script : Option String := none
deriving DecidableEq

/-- `default_credentials` record (custom-import-router.ts lines 81-84). -/
structure DefaultCredentials where
  username : Option String
  password : Option String
deriving DecidableEq

/-- One entry of `notes` (custom-import-router.ts lines 85-88). -/
structure ManifestNote where
  text : String
  type : String
deriving DecidableEq

/-- `ScriptManifest` (custom-import-router.ts lines 56-89). -/
structure ScriptManifest where
  name : String
  slug : String
  categories : List Nat
  date_created : String
  type : String
  updateable : Bool
  privileged : Bool
  interface_port : Option Nat
  documentation : String
  website : String
  logo : String
  description : String
  source : ManifestSource
  install_methods : List InstallMethod
  default_credentials : DefaultCredentials
  notes : List ManifestNote
deriving DecidableEq

/-- `ImportEntry` of the router registry (custom-import-router.ts lines 34-40). -/
structure ImportEntry where
  slug : String
  source : String
  branch : String
  imported_at : String
  version : String
deriving DecidableEq

/-- `CustomImportsConfig`, the registry document (custom-import-router.ts lines 42-45). -/
structure CustomImportsConfig where
  imports : List ImportEntry
  last_updated : String
deriving DecidableEq

/-- `ImportRecord` of the integration library registry (lib lines 54-62).
`sourceType` is one of the strings "github", "community-scripts", "selfhst". -/
structure ImportRecord where
  slug : String
  name : String
  source : String
  sourceType : String
  importedAt : String
  category : Option String
  manifestPath : Option String
deriving DecidableEq

/-- Repository metadata fetched from the GitHub API (`/repos/{owner}/{repo}`);
only the field the generator reads (`description`, possibly null). -/
structure RepoInfo where
  description : Option String
deriving DecidableEq

/-- `customResources` of the import request (custom-import-router.ts lines 101-107);
every field optional. -/
structure CustomResources where
  cpu : Option Nat
  ram : Option Nat
  hdd : Option Nat
  os : Option String
  version : Option String
deriving DecidableEq

/-- `customOptions` argument of `generateManifest` (custom-import-router.ts lines 208-218). -/
structure CustomOptions where
  name : Option String
  description : Option String
  resources : Option CustomResources
deriving DecidableEq

/-! ### JavaScript helpers

`a || b` on strings/numbers treats `""`/`0` (and null/undefined, i.e. `none`)
as falsy. -/

/-- JS `a || b` where `a : string | undefined`. -/
def jsOrStr (a : Option String) (b : String) : String :=
  match a with
  | some s => if s = "" then b else s
  | none => b

/-- JS `a || b` where `a : number | undefined`. -/
def jsOrNat (a : Option Nat) (b : Nat) : Nat :=
  match a with
  | some n => if n = 0 then b else n
  | none => b

/-! ### Registry upsert / remove

Router `import` mutation, registry-update block (custom-import-router.ts lines
476-491): `findIndex` on `slug`, replace in place when found, else `push`.
The integration library's `addImport` (lib lines 105-114) performs the same
`findIndex`/replace-or-push on `ImportRecord`s, and `removeImport` (lib lines
116-124) filters the record with the given slug out. -/

/-- Registry upsert of the router `import` mutation (lines 477, 487-491). -/
def routerUpsert (imports : List ImportEntry) (entry : ImportEntry) : List ImportEntry :=
  match imports.findIdx? (fun i => i.slug == entry.slug) with
  | some existingIndex => imports.set existingIndex entry
  | none => imports ++ [entry]

/-- List-level core of the library `addImport` (lib lines 105-114). -/
def addImportUpsert (imports : List ImportRecord) (record : ImportRecord) : List ImportRecord :=
  match imports.findIdx? (fun i => i.slug == record.slug) with
  | some existing => imports.set existing record
  | none => imports ++ [record]

/-- List-level core of the library `removeImport` (lib lines 116-124). -/
def removeImportFilter (imports : List ImportRecord) (slug : String) : List ImportRecord :=
  imports.filter (fun i => i.slug != slug)

/-! ### `slugify` (lib lines 172-178)

`name.toLowerCase().replace(/[^a-z0-9]+/g, '-').replace(/^-|-$/g, '').substring(0, 50)`.

The global replace of `[^a-z0-9]+` maps every maximal run of characters
outside `[a-z0-9]` to a single `'-'` (`collapseRuns`); `/^-|-$/g` removes the
single possible leading and trailing dash (`stripLead`/`stripTrail`), and
`substring(0, 50)` is `take 50`. -/

/-- Characters of the class `[a-z0-9]`. -/
def isLowerAlnum (c : Char) : Bool :=
  ('a' ≤ c && c ≤ 'z') || ('0' ≤ c && c ≤ '9')

/-- `replace(/<class>+/g, '-')`: each maximal run of characters satisfying `p`
becomes a single `'-'`. The flag records whether we are inside such a run. -/
def collapseRunsAux (p : Char → Bool) : Bool → List Char → List Char
  | _, [] => []
  | inRun, c :: cs =>
    if p c then
      if inRun then collapseRunsAux p true cs
      else '-' :: collapseRunsAux p true cs
    else c :: collapseRunsAux p false cs

/-- Entry point of `collapseRunsAux` (not inside a run initially). -/
def collapseRuns (p : Char → Bool) (l : List Char) : List Char :=
  collapseRunsAux p false l

/-- Leading-dash removal half of the dash-trim regex (anchored `^-`). -/
def stripLead : List Char → List Char
  | '-' :: t => t
  | l => l

/-- Trailing-dash removal half of the dash-trim regex (anchored `-$`). -/
def stripTrail (l : List Char) : List Char :=
  if l.getLast? = some '-' then l.dropLast else l

/-- `slugify` of the integration library (lib lines 172-178). -/
def slugify (name : String) : String :=
  String.mk
    ((stripTrail (stripLead
      (collapseRuns (fun c => !(isLowerAlnum c)) (name.data.map Char.toLower)))).take 50)

/-! ### Router slug derivation (custom-import-router.ts line 223)

`repo.toLowerCase().replace(/\s+/g, '-').replace(/[^a-z0-9-]/g, '')`. -/

/-- Characters kept by the router slug (`[a-z0-9-]`). -/
def isSlugChar (c : Char) : Bool :=
  isLowerAlnum c || c = '-'

/-- The router's slug derivation (line 223): lower-case, whitespace runs to a
single dash, then drop everything outside `[a-z0-9-]`. -/
def routerSlug (repo : String) : String :=
  String.mk
    ((collapseRuns (fun c => c.isWhitespace) (repo.data.map Char.toLower)).filter isSlugChar)

/-! ### URL parser (custom-import-router.ts lines 130-144)

`url.match(/github\.com\/([^/]+)\/([^/]+)(?:\/tree\/(.+))?/)` followed by
`.git`-suffix stripping of the repo and `match[3] || 'main'`.

The regex is unanchored, so matching is a leftmost search (`ghSearch`); at one
position (`ghParseAt`) the literal `github.com/` must match, then a nonempty
greedy run of non-`/` characters (owner), a `/`, a nonempty greedy run of
non-`/` characters (repo), and optionally `/tree/` followed by a nonempty
greedy `.+` (which stops at a newline, the only character `.` does not match). -/

/-- The literal `github.com/` of the regex. -/
def ghLit : List Char := "github.com/".data

/-- The literal `/tree/` of the regex. -/
def treeLit : List Char := "/tree/".data

/-- Try to match the regex at the start of `l`; on success return
`(owner, repo, optional branch)` exactly as captured. -/
def ghParseAt (l : List Char) : Option (List Char × List Char × Option (List Char)) :=
  if ghLit.isPrefixOf l then
    let rest := l.drop ghLit.length
    let owner := rest.takeWhile (fun c => c ≠ '/')
    let rest1 := rest.dropWhile (fun c => c ≠ '/')
    if owner = [] then none
    else
      match rest1 with
      | '/' :: rest2 =>
        let repo := rest2.takeWhile (fun c => c ≠ '/')
        let rest3 := rest2.dropWhile (fun c => c ≠ '/')
        if repo = [] then none
        else
          let branch : Option (List Char) :=
            if treeLit.isPrefixOf rest3 then
              let b := (rest3.drop treeLit.length).takeWhile (fun c => c ≠ '\n')
              if b = [] then none else some b
            else none
          some (owner, repo, branch)
      | _ => none
  else none

/-- Leftmost unanchored search of the regex. -/
def ghSearch : List Char → Option (List Char × List Char × Option (List Char))
  | [] => none
  | c :: cs =>
    match ghParseAt (c :: cs) with
    | some r => some r
    | none => ghSearch cs

/-- `repo.replace(/\.git$/, '')` (line 141). -/
def stripDotGit (r : List Char) : List Char :=
  if ".git".data.isSuffixOf r then r.take (r.length - 4) else r

/-- `parseGitHubUrl` (custom-import-router.ts lines 130-144): on a match,
returns owner, the repo with a trailing `.git` stripped, and the captured
branch or `"main"`; otherwise the `BAD_REQUEST` "Invalid GitHub URL" error. -/
def parseGitHubUrl (url : String) : Except String (String × String × String) :=
  match ghSearch url.data with
  | none => .error "Invalid GitHub URL"
  | some (owner, repo, branch) =>
    .ok (String.mk owner, String.mk (stripDotGit repo),
      String.mk (match branch with | some b => b | none => "main".data))

/-- Builder for the GitHub URLs admitted by the router's `GitHubUrlSchema`
regex: `http(s)://github.com/` then an owner of shape `[\w-]+`, `/`, a repo of
shape `[\w.-]+`, and an optional `/tree/` plus a branch of word characters,
slashes and dashes. -/
def mkGitHubUrl (secure : Bool) (owner repo : String) (branch : Option String) : String :=
  (if secure then "https://" else "http://") ++ "github.com/" ++ owner ++ "/" ++ repo ++
    (match branch with | some b => "/tree/" ++ b | none => "")

/-- The regex word-character class `\w`. -/
def wordChar (c : Char) : Bool :=
  ('a' ≤ c && c ≤ 'z') || ('A' ≤ c && c ≤ 'Z') || ('0' ≤ c && c ≤ '9') || c = '_'

/-- Owner segment shape `[\w-]+` of `GitHubUrlSchema`. -/
def validOwner (o : String) : Prop :=
  o.data ≠ [] ∧ ∀ c ∈ o.data, wordChar c = true ∨ c = '-'

/-- Repo segment shape `[\w.-]+` of `GitHubUrlSchema`. -/
def validRepo (r : String) : Prop :=
  r.data ≠ [] ∧ ∀ c ∈ r.data, wordChar c = true ∨ c = '.' ∨ c = '-'

/-- Branch segment shape of `GitHubUrlSchema`: word characters, slashes and dashes. -/
def validBranch (b : String) : Prop :=
  b.data ≠ [] ∧ ∀ c ∈ b.data, wordChar c = true ∨ c = '/' ∨ c = '-'

/-- A string matches the `github.com/<owner>/<repo>` shape of the parser's
regex: somewhere it contains `github.com/`, a nonempty slash-free owner, `/`,
and a nonempty slash-free repo. -/
def ghShape (s : List Char) : Prop :=
  ∃ pre o r rest,
    s = pre ++ ghLit ++ o ++ '/' :: r ++ rest ∧
      o ≠ [] ∧ r ≠ [] ∧ (∀ c ∈ o, c ≠ '/') ∧ (∀ c ∈ r, c ≠ '/')

/-! ### Project-type detection (custom-import-router.ts lines 164-179)

The root content listing is fetched; on any failure the `catch` yields
`"generic"`. `contents = none` models a failed fetch. -/

/-- `detectProjectType` of the router: fixed priority order
nodejs → python → docker → golang → rust, first marker wins. -/
def detectProjectType (contents : Option (List String)) : String :=
  match contents with
  | none => "generic"
  | some files =>
    if files.contains "package.json" then "nodejs"
    else if files.contains "requirements.txt" || files.contains "pyproject.toml" then "python"
    else if files.contains "Dockerfile" || files.contains "docker-compose.yml" then "docker"
    else if files.contains "go.mod" then "golang"
    else if files.contains "Cargo.toml" then "rust"
    else "generic"

/-! ### Manifest generation (custom-import-router.ts lines 204-277) -/

/-- `defaultResources[projectType] || defaultResources.generic`
(lines 226-235), as `(cpu, ram, hdd)`. -/
def defaultResourcesFor (projectType : String) : Nat × Nat × Nat :=
  if projectType = "nodejs" then (1, 1024, 8)
  else if projectType = "python" then (1, 1024, 4)
  else if projectType = "docker" then (2, 2048, 16)
  else if projectType = "golang" then (1, 1024, 4)
  else if projectType = "rust" then (2, 2048, 8)
  else (1, 512, 4)

/-- `generateManifest` (custom-import-router.ts lines 204-277). The repository
metadata fetch and root listing are passed in (`repoInfo`, `contents`);
`today` stands for `new Date().toISOString().split('T')[0]`. -/
def generateManifest (owner repo branch : String) (contents : Option (List String))
    (repoInfo : RepoInfo) (customOptions : Option CustomOptions) (today : String) :
    ScriptManifest :=
  let projectType := detectProjectType contents
  let slug := routerSlug repo
  let base := defaultResourcesFor projectType
  let customRes := customOptions.bind (fun c => c.resources)
  { name := jsOrStr (customOptions.bind (fun c => c.name)) repo
    slug := slug
    categories := [14]
    date_created := today
    type := "ct"
    updateable := true
    privileged := false
    interface_port :=
      if projectType = "nodejs" then some 3000
      else if projectType = "python" then some 8000 else none
    documentation := "https://github.com/" ++ owner ++ "/" ++ repo ++ "#readme"
    website := "https://github.com/" ++ owner ++ "/" ++ repo
    logo := "https://cdn.jsdelivr.net/gh/selfhst/icons/webp/github.webp"
    description := jsOrStr (customOptions.bind (fun c => c.description))
      (jsOrStr repoInfo.description "Custom imported script")
    source :=
      { type := "github", owner := owner, repo := repo, branch := branch
        project_type := projectType }
    install_methods :=
      [{ type := "default"
         script := "custom-ct/" ++ slug ++ ".sh"
         resources :=
           { cpu := jsOrNat (customRes.bind (fun r => r.cpu)) base.1
             ram := jsOrNat (customRes.bind (fun r => r.ram)) base.2.1
             hdd := jsOrNat (customRes.bind (fun r => r.hdd)) base.2.2
             os := jsOrStr (customRes.bind (fun r => r.os)) "debian"
             version := jsOrStr (customRes.bind (fun r => r.version)) "13" } }]
    default_credentials := { username := none, password := none }
    notes :=
      [{ text := "Imported from GitHub: " ++ owner ++ "/" ++ repo, type := "info" },
       { text := "Project type: " ++ projectType, type := "info" }] }

/-! ### Install-script generation (custom-import-router.ts lines 279-427)

The template literals of `generateInstallScript` are reproduced below as
string chunks; each `${...}` interpolation point splits a literal in two, and
the function concatenates chunks and interpolated manifest fields exactly as
the source template does. -/

/-- nodejs `depsSection` (lines 289-293). -/
def nodeDeps : String :=
  "\nmsg_info \"Installing Node.js\"\ncurl -fsSL https://deb.nodesource.com/setup_24.x | bash -\n$STD apt-get install -y nodejs\nmsg_ok \"Node.js installed\""

/-- nodejs `buildSection` (lines 294-301). -/
def nodeBuild : String :=
  "\nmsg_info \"Installing dependencies\"\n$STD npm install\nif grep -q \x27\"build\"\x27 package.json 2>/dev/null; then\n    msg_info \"Building application\"\n    $STD npm run build\nfi\nmsg_ok \"Application built\""

/-- python `depsSection` (lines 306-309). -/
def pyDeps : String :=
  "\nmsg_info \"Installing Python\"\n$STD apt-get install -y python3 python3-pip python3-venv\nmsg_ok \"Python installed\""

/-- python `buildSection` (lines 310-320). -/
def pyBuild : String :=
  "\nmsg_info \"Setting up Python environment\"\npython3 -m venv venv\nsource venv/bin/activate\nif [ -f \"requirements.txt\" ]; then\n    $STD pip install -r requirements.txt\nfi\nif [ -f \"pyproject.toml\" ]; then\n    $STD pip install .\nfi\nmsg_ok \"Environment configured\""

/-- docker `depsSection`, piece 1 (lines 325-328). -/
def dockerDepsA : String :=
  "\nmsg_info \"Installing Docker\"\n$STD apt-get install -y ca-certificates gnupg\ninstall -m 0755 -d /etc/apt/keyrings\n"

/-- docker `depsSection`, piece 2 (line 329). -/
def dockerDepsB : String :=
  "curl -fsSL https://download.docker.com/linux/debian/gpg | gpg --dearmor -o /etc/apt/keyrings/docker.gpg\n"

/-- docker `depsSection`, piece 3 (line 330). -/
def dockerDepsC : String :=
  "chmod a+r /etc/apt/keyrings/docker.gpg\n"

/-- docker `depsSection`, piece 4 (line 331, first half). -/
def dockerDepsD : String :=
  "echo \"deb [arch=$(dpkg --print-architecture) signed-by=/etc/apt/keyrings/docker.gpg] "

/-- docker `depsSection`, piece 5 (line 331, second half). -/
def dockerDepsE : String :=
  "https://download.docker.com/linux/debian $(. /etc/os-release && echo \"$VERSION_CODENAME\") stable\" "

/-- docker `depsSection`, piece 6 (line 331, tail). -/
def dockerDepsF : String :=
  "| tee /etc/apt/sources.list.d/docker.list > /dev/null\n"

/-- docker `depsSection`, piece 7 (lines 332-333, first half). -/
def dockerDepsG : String :=
  "$STD apt-get update\n$STD apt-get install -y docker-ce docker-ce-cli containerd.io "

/-- docker `depsSection`, piece 8 (lines 333-334). -/
def dockerDepsH : String :=
  "docker-buildx-plugin docker-compose-plugin\nmsg_ok \"Docker installed\""

/-- docker `depsSection` (lines 325-334), assembled from its pieces. -/
def dockerDeps : String :=
  dockerDepsA ++ dockerDepsB ++ dockerDepsC ++ dockerDepsD ++ dockerDepsE ++ dockerDepsF ++
    dockerDepsG ++ dockerDepsH

/-- docker `buildSection` up to the first `${slug}`, piece 1 (lines 335-337). -/
def dockerBuildA1 : String :=
  "\nmsg_info \"Building containers\"\nif [ -f \"docker-compose.yml\" ]; then\n"

/-- docker `buildSection` up to the first `${slug}`, piece 2 (lines 338-341). -/
def dockerBuildA2 : String :=
  "    $STD docker compose build\n    $STD docker compose up -d\nelse\n    $STD docker build -t "

/-- docker `buildSection` up to the first `${slug}` (lines 335-341). -/
def dockerBuildA : String :=
  dockerBuildA1 ++ dockerBuildA2

/-- docker `buildSection` between the first and second `${slug}` (lines 341-342). -/
def dockerBuildB : String :=
  " .\n    $STD docker run -d --name "

/-- docker `buildSection` between the second and third `${slug}` (line 342). -/
def dockerBuildC : String :=
  " --restart unless-stopped "

/-- docker `buildSection` after the third `${slug}` (lines 342-344). -/
def dockerBuildD : String :=
  "\nfi\nmsg_ok \"Containers running\""

/-- golang `depsSection` (lines 348-355). -/
def goDeps : String :=
  "\nmsg_info \"Installing Go\"\nGO_VERSION=$(curl -s https://go.dev/VERSION?m=text | head -1)\nwget -q \"https://go.dev/dl/${GO_VERSION}.linux-amd64.tar.gz\"\ntar -C /usr/local -xzf \"${GO_VERSION}.linux-amd64.tar.gz\"\nrm \"${GO_VERSION}.linux-amd64.tar.gz\"\nexport PATH=$PATH:/usr/local/go/bin\nmsg_ok \"Go installed\""

/-- golang `buildSection` (lines 356-359). -/
def goBuild : String :=
  "\nmsg_info \"Building application\"\n$STD go build -o app .\nmsg_ok \"Built\""

/-- default-case `depsSection` (lines 364-367). -/
def genericDeps : String :=
  "\nmsg_info \"Installing dependencies\"\n$STD apt-get install -y wget\nmsg_ok \"Dependencies installed\""

/-- The `switch (projectType)` of lines 287-368: `(depsSection, buildSection,
serviceSection)` per project type, with `buildSection`/`serviceSection`
staying `''` when the case does not assign them. -/
def sectionsFor (slug : String) (projectType : String) : String × String × String :=
  if projectType = "nodejs" then
    (nodeDeps, nodeBuild, "ExecStart=/usr/bin/npm start")
  else if projectType = "python" then
    (pyDeps, pyBuild, "ExecStart=/opt/" ++ slug ++ "/venv/bin/python -m app")
  else if projectType = "docker" then
    (dockerDeps, dockerBuildA ++ slug ++ dockerBuildB ++ slug ++ dockerBuildC ++ slug ++ dockerBuildD, "")
  else if projectType = "golang" then
    (goDeps, goBuild, "ExecStart=/opt/" ++ slug ++ "/app")
  else
    (genericDeps, "", "")

/-- `serviceBlock` template up to `${slug}` in the unit path (lines 370-372). -/
def sbA : String :=
  "\nmsg_info \"Creating systemd service\"\ncat > /etc/systemd/system/"

/-- `serviceBlock` between `${slug}` and `${name}` (lines 372-374). -/
def sbB : String :=
  ".service <<EOF\n[Unit]\nDescription="

/-- `serviceBlock` between `${name}` and the `WorkingDirectory` `${slug}` (lines 374-380). -/
def sbC : String :=
  "\nAfter=network.target\n\n[Service]\nType=simple\nUser=root\nWorkingDirectory=/opt/"

/-- `serviceBlock` between the `WorkingDirectory` `${slug}` and `${serviceSection}` (lines 380-381). -/
def sbD : String := "\n"

/-- `serviceBlock` between `${serviceSection}` and the `enable --now` `${slug}` (lines 381-390). -/
def sbE : String :=
  "\nRestart=always\nRestartSec=10\n\n[Install]\nWantedBy=multi-user.target\nEOF\n\nsystemctl daemon-reload\nsystemctl enable --now "

/-- `serviceBlock` tail after the last `${slug}` (lines 390-391). -/
def sbF : String :=
  "\nmsg_ok \"Service created\""

/-- `serviceBlock` (lines 370-391): the service-unit template when
`serviceSection` is truthy (nonempty), else the empty string. -/
def serviceBlockFor (slug name serviceSection : String) : String :=
  if serviceSection = "" then ""
  else
    sbA ++ slug ++ sbB ++ name ++ sbC ++ slug ++ sbD ++ serviceSection ++ sbE ++ slug ++ sbF

/-- Script header up to `${name}` (lines 393-395). -/
def scriptHdrA : String :=
  "#!/usr/bin/env bash\n\n# Auto-generated installation script for "

/-- Script header between `${name}` and `${source.owner}` (lines 395-396). -/
def scriptHdrB : String :=
  "\n# Imported from: https://github.com/"

/-- Script body between `${source.repo}` and `${depsSection}`, piece 1 (lines 396-404). -/
def scriptMidA : String :=
  "\n\nsource /dev/stdin <<< \"$FUNCTIONS_FILE_PATH\"\ncolor\nverb_ip6\ncatch_errors\nsetting_up_container\nnetwork_check\nupdate_os\n"

/-- Script body between `${source.repo}` and `${depsSection}`, piece 2 (lines 405-409). -/
def scriptMidB : String :=
  "\nmsg_info \"Installing base dependencies\"\n$STD apt-get install -y curl git\nmsg_ok \"Base dependencies installed\"\n"

/-- Script body between `${source.repo}` and `${depsSection}` (lines 396-409). -/
def scriptMid : String :=
  scriptMidA ++ scriptMidB

/-- Clone block between `${depsSection}` and `${source.branch}` (lines 409-413). -/
def cloneA : String :=
  "\n\nmsg_info \"Cloning repository\"\ncd /opt\ngit clone -b \""

/-- Clone block between `${source.branch}` and `${source.owner}` (line 413). -/
def cloneB : String :=
  "\" \"https://github.com/"

/-- Clone block between `${source.repo}` and `${slug}` (line 413). -/
def cloneC : String :=
  ".git\" \""

/-- Clone block between `${slug}` and the `cd` `${slug}` (lines 413-414). -/
def cloneD : String :=
  "\"\ncd \"/opt/"

/-- Clone block tail after the `cd` `${slug}` (lines 414-416). -/
def cloneE : String :=
  "\"\nmsg_ok \"Repository cloned\"\n"

/-- Script tail after `${serviceBlock}` (lines 417-426). -/
def scriptTail : String :=
  "\n\nmotd_ssh\ncustomize\n\nmsg_info \"Cleaning up\"\n$STD apt-get -y autoremove\n$STD apt-get -y autoclean\nmsg_ok \"Cleaned\"\n"

/-- `generateInstallScript` (custom-import-router.ts lines 279-427): the full
template with `depsSection`, `buildSection` and `serviceBlock` spliced in. -/
def generateInstallScript (m : ScriptManifest) : String :=
  scriptHdrA ++ m.name ++ scriptHdrB ++ m.source.owner ++ "/" ++ m.source.repo ++ scriptMid ++
    (sectionsFor m.slug m.source.project_type).1 ++
    cloneA ++ m.source.branch ++ cloneB ++ m.source.owner ++ "/" ++ m.source.repo ++ cloneC ++
    m.slug ++ cloneD ++ m.slug ++ cloneE ++
    (sectionsFor m.slug m.source.project_type).2.1 ++ "\n" ++
    serviceBlockFor m.slug m.name (sectionsFor m.slug m.source.project_type).2.2 ++
    scriptTail

/-! ### Manifest probing (custom-import-router.ts lines 181-202) -/

/-- Outcome of probing one manifest location: the content-listing API call can
throw, the download fetch can throw or return non-2xx, the body can be invalid
JSON, or a manifest is found. -/
inductive ProbeOutcome where
  | apiError
  | fetchError
  | notOk
  | badJson
  | found (m : ScriptManifest)
deriving DecidableEq

/-- The fixed ordered probe list `locations` (lines 182-187). -/
def manifestLocations : List String :=
  ["pvescripts.json", ".pvescripts/manifest.json", "deploy/pvescripts.json", ".claude/pvescripts.json"]

/-- The `for (const location of locations)` loop (lines 189-199): first
location whose probe yields a manifest wins; every failure outcome is caught
by the `catch { continue }` and probing moves on. -/
def probeLocations (probe : String → ProbeOutcome) : List String → Option ScriptManifest
  | [] => none
  | loc :: rest =>
    match probe loc with
    | .found m => some m
    | _ => probeLocations probe rest

/-- `checkForManifest` (lines 181-202). -/
def checkForManifest (probe : String → ProbeOutcome) : Option ScriptManifest :=
  probeLocations probe manifestLocations

/-! ### Import / preview orchestration (custom-import-router.ts lines 430-643)

The file system is a `Store`: the parsed registry document (`CONFIG_FILE`)
plus the other written files. `fs.writeFile` upserts a path. Each fallible
step has an outcome flag in `ImportEnv`; a failing step aborts the operation
with the state as accumulated so far (a failing write applies no change). -/

/-- Content of a non-registry file: a serialized manifest or a script text. -/
inductive FileContent where
  | manifestJson (m : ScriptManifest)
  | scriptText (t : String)
deriving DecidableEq

/-- The observable file-system state: the registry document and the other files. -/
structure Store where
  registry : CustomImportsConfig
  files : List (String × FileContent)
deriving DecidableEq

/-- `fs.writeFile`: create or overwrite `path`. -/
def fsWrite (files : List (String × FileContent)) (path : String) (content : FileContent) :
    List (String × FileContent) :=
  (path, content) :: files.filter (fun pc => pc.1 != path)

/-- Environment of one orchestrator call: outcomes of its network requests and
file-system operations, and the wall clock. -/
structure ImportEnv where
  probe : String → ProbeOutcome
  repoInfo : Except String RepoInfo
  contents : Option (List String)
  ensureDirsOk : Bool
  writeManifestOk : Bool
  writeScriptOk : Bool
  chmodOk : Bool
  writeJsonCopyOk : Bool
  saveConfigOk : Bool
  now : String
  today : String

/-- Parsed body of an import request (`ImportRequestSchema`, lines 97-108). -/
structure ImportInput where
  url : String
  customName : Option String
  customDescription : Option String
  customResources : Option CustomResources

/-- Result value of the `import` mutation (lines 496-500). -/
structure ImportResult where
  success : Bool
  manifest : ScriptManifest
  message : String
deriving DecidableEq

/-- JS object spread `{...resources, ...input.customResources}` (lines 452-455):
fields present in the custom record override the manifest's. -/
def mergeResources (res : ResourceSpec) (c : CustomResources) : ResourceSpec :=
  { cpu := c.cpu.getD res.cpu
    ram := c.ram.getD res.ram
    hdd := c.hdd.getD res.hdd
    os := c.os.getD res.os
    version := c.version.getD res.version }

/-- `manifest.install_methods[0].resources = {...}` (lines 450-456) on an
existing manifest when custom resources were supplied. -/
def applyCustomResources (m : ScriptManifest) (c : CustomResources) : ScriptManifest :=
  { m with
    install_methods :=
      match m.install_methods with
      | [] => []
      | im :: rest => { im with resources := mergeResources im.resources c } :: rest }

/-- The `import` mutation (custom-import-router.ts lines 434-502), in source
order: `ensureDirectories`, `parseGitHubUrl`, `checkForManifest` (or
`generateManifest`, whose repository-metadata fetch may fail; with custom
resources merged into a pre-existing manifest), `generateInstallScript`, the
three file writes plus `chmod`, then `getConfig`, the slug-keyed upsert and
`saveConfig`. An error carries the store as accumulated at the failing step. -/
def importOp (env : ImportEnv) (input : ImportInput) (s : Store) :
    Except (String × Store) (Store × ImportResult) :=
  if env.ensureDirsOk = false then .error ("mkdir failed", s)
  else
    match parseGitHubUrl input.url with
    | .error e => .error (e, s)
    | .ok (owner, repo, branch) =>
      let manifestE : Except (String × Store) ScriptManifest :=
        match checkForManifest env.probe with
        | none =>
          match env.repoInfo with
          | .error e => .error (e, s)
          | .ok info =>
            .ok (generateManifest owner repo branch env.contents info
              (some { name := input.customName, description := input.customDescription,
                      resources := input.customResources }) env.today)
        | some m =>
          match input.customResources with
          | some c => .ok (applyCustomResources m c)
          | none => .ok m
      match manifestE with
      | .error es => .error es
      | .ok manifest =>
        let installScript := generateInstallScript manifest
        if env.writeManifestOk = false then .error ("write manifest failed", s)
        else
          let s1 : Store := { s with
            files := fsWrite s.files ("json/custom/" ++ manifest.slug ++ ".json")
              (.manifestJson manifest) }
          if env.writeScriptOk = false then .error ("write script failed", s1)
          else
            let s2 : Store := { s1 with
              files := fsWrite s1.files ("custom-ct/" ++ manifest.slug ++ ".sh")
                (.scriptText installScript) }
            if env.chmodOk = false then .error ("chmod failed", s2)
            else if env.writeJsonCopyOk = false then .error ("write json copy failed", s2)
            else
              let s3 : Store := { s2 with
                files := fsWrite s2.files ("json/custom-" ++ manifest.slug ++ ".json")
                  (.manifestJson manifest) }
              let config := s3.registry
              let entry : ImportEntry :=
                { slug := manifest.slug
                  source := "https://github.com/" ++ owner ++ "/" ++ repo
                  branch := branch
                  imported_at := env.now
                  version := "latest" }
              let newConfig : CustomImportsConfig :=
                { imports := routerUpsert config.imports entry, last_updated := env.now }
              if env.saveConfigOk = false then .error ("save config failed", s3)
              else
                .ok ({ s3 with registry := newConfig },
                  { success := true, manifest := manifest,
                    message := "Successfully imported " ++ manifest.name })

/-- Result value of the `preview` query (lines 636-640). -/
structure PreviewResult where
  manifest : ScriptManifest
  hasExistingManifest : Bool
  installScriptPreview : String
deriving DecidableEq

/-- The `preview` query (custom-import-router.ts lines 626-642):
`parseGitHubUrl`, `checkForManifest`, `generateManifest` when no manifest was
found (the JS `manifest` variable is reassigned, so afterwards it is non-null,
modelled by `manifestVar := some m`), then the result record with
`hasExistingManifest := !!manifest` and the 500-character script slice plus
`"..."`. No file-system operation occurs. -/
def previewOp (env : ImportEnv) (input : ImportInput) (s : Store) :
    Except (String × Store) (Store × PreviewResult) :=
  match parseGitHubUrl input.url with
  | .error e => .error (e, s)
  | .ok (owner, repo, branch) =>
    let manifestE : Except (String × Store) ScriptManifest :=
      match checkForManifest env.probe with
      | none =>
        match env.repoInfo with
        | .error e => .error (e, s)
        | .ok info => .ok (generateManifest owner repo branch env.contents info none env.today)
      | some m => .ok m
    match manifestE with
    | .error es => .error es
    | .ok m =>
      let manifestVar : Option ScriptManifest := some m
      .ok (s,
        { manifest := m
          hasExistingManifest := manifestVar.isSome
          installScriptPreview := String.mk ((generateInstallScript m).data.take 500) ++ "..." })

/-! ### Auxiliary definitions used by the statements and proofs -/

/-- Generic form of the slug-keyed upsert shared by `routerUpsert` and
`addImportUpsert`: find the first element with the same key, replace it in
place, else append. -/
def upsertByKey {α : Type} (key : α → String) (l : List α) (r : α) : List α :=
  match l.findIdx? (fun i => key i == key r) with
  | some existing => l.set existing r
  | none => l ++ [r]

/-- `t` occurs as a contiguous substring of `s`. -/
def strContains (s t : String) : Prop :=
  t.data <:+: s.data

/-- Two given characters never occur adjacently in `l`, and `l` does not start
with the second one (used to propagate substring absence across appends). -/
def pairFree (a b : Char) (l : List Char) : Prop :=
  ¬ ([a, b] <:+: l) ∧ l.head? ≠ some b

/-- Concatenation of a list of character-list chunks. -/
def catChunks (ls : List (List Char)) : List Char :=
  ls.foldr (fun a b => a ++ b) []

/-- The input of the `slugify` idempotence counterexample: 49 `'a'`s followed
by `"!b"`; its slug is 49 `'a'`s, a dash and a `'b'` truncated at 50
characters, which ends in a dash. -/
def slugifyCounterexampleInput : String :=
  String.mk (List.replicate 49 'a' ++ ['!', 'b'])

/-- A small manifest used to instantiate universally quantified theorems. -/
def sampleManifest (projectType : String) : ScriptManifest :=
  { name := "Widget"
    slug := "widget"
    categories := [14]
    date_created := "2026-01-01"
    type := "ct"
    updateable := true
    privileged := false
    interface_port := none
    documentation := ""
    website := ""
    logo := ""
    description := ""
    source :=
      { type := "github", owner := "acme", repo := "widget", branch := "main"
        project_type := projectType }
    install_methods := []
    default_credentials := { username := none, password := none }
    notes := [] }

/-- A store with one registered import, used to instantiate theorems. -/
def sampleStore : Store :=
  { registry :=
      { imports :=
          [{ slug := "other", source := "https://github.com/acme/other", branch := "main"
             imported_at := "2026-01-01", version := "latest" }]
        last_updated := "2026-01-01" }
    files := [] }

/-- An environment whose manifest probes all fail, whose metadata fetch
succeeds, and whose manifest-file write fails. -/
def sampleEnvWriteFail : ImportEnv :=
  { probe := fun _ => ProbeOutcome.apiError
    repoInfo := .ok { description := none }
    contents := some ["package.json"]
    ensureDirsOk := true
    writeManifestOk := false
    writeScriptOk := true
    chmodOk := true
    writeJsonCopyOk := true
    saveConfigOk := true
    now := "2026-01-02T00:00:00.000Z"
    today := "2026-01-02" }

/-- An environment in which every step succeeds (probes find no manifest). -/
def sampleEnvOk : ImportEnv :=
  { sampleEnvWriteFail with writeManifestOk := true }

/-- A well-formed import request for `acme/widget`. -/
def sampleInput : ImportInput :=
  { url := "https://github.com/acme/widget"
    customName := none
    customDescription := none
    customResources := none }

/-- An import request whose URL does not contain the GitHub shape. -/
def sampleBadInput : ImportInput :=
  { url := "hello"
    customName := none
    customDescription := none
    customResources := none }

/-- Registry record fixture. -/
def sampleRecA : ImportRecord :=
  { slug := "alpha", name := "Alpha", source := "https://github.com/acme/alpha"
    sourceType := "github", importedAt := "2026-01-01", category := none, manifestPath := none }

/-- Registry record fixture with a second slug. -/
def sampleRecB : ImportRecord :=
  { slug := "beta", name := "Beta", source := "https://github.com/acme/beta"
    sourceType := "github", importedAt := "2026-01-01", category := none, manifestPath := none }

/-- Registry record fixture sharing `sampleRecA`'s slug. -/
def sampleRecA2 : ImportRecord :=
  { slug := "alpha", name := "Alpha v2", source := "https://github.com/acme/alpha"
    sourceType := "github", importedAt := "2026-01-02", category := none, manifestPath := none }

/-- Router registry entry fixture. -/
def sampleEntryA : ImportEntry :=
  { slug := "alpha", source := "https://github.com/acme/alpha", branch := "main"
    imported_at := "2026-01-01", version := "latest" }

/-- The manifest `preview` generates for `sampleInput` under `sampleEnvOk`. -/
def samplePreviewManifest : ScriptManifest :=
  generateManifest "acme" "widget" "main" (some ["package.json"]) { description := none }
    none "2026-01-02"

/-- The result value `preview` returns for `sampleInput` under `sampleEnvOk`. -/
def samplePreviewResult : PreviewResult :=
  { manifest := samplePreviewManifest
    hasExistingManifest := true
    installScriptPreview :=
      String.mk ((generateInstallScript samplePreviewManifest).data.take 500) ++ "..." }

/-! ## Theorems -/

/-! ### Generic list lemmas -/

theorem list_set_get_self {α : Type} :
    ∀ (l : List α) (i : Nat) (h : i < l.length), l.set i (l.get ⟨i, h⟩) = l := by
  intro l
  induction l with
  | nil => intro i h; simp at h
  | cons a t ih =>
    intro i h
    cases i with
    | zero => rfl
    | succ n =>
      have := ih n (by simpa using h)
      simpa [List.set] using this

theorem upsertByKey_map_nodup {α : Type} (key : α → String) (l : List α) (r : α)
    (h : (l.map key).Nodup) : ((upsertByKey key l r).map key).Nodup := by
  unfold upsertByKey
  cases hf : l.findIdx? (fun i => key i == key r) with
  | some i =>
    obtain ⟨hlen, hidx⟩ := (List.findIdx?_eq_some_iff_findIdx_eq).1 hf
    have hkey : key (l.get ⟨i, hlen⟩) = key r := by
      have hgot := @List.findIdx_getElem _ (fun x => key x == key r) l
        (by rw [hidx]; exact hlen)
      simp only [beq_iff_eq] at hgot
      rw [← hgot]
      congr 1
      simp [hidx]
    rw [List.map_set, ← hkey]
    have hmapget : key (l.get ⟨i, hlen⟩) = (l.map key).get ⟨i, by simpa using hlen⟩ := by
      simp
    rw [hmapget, list_set_get_self]
    exact h
  | none =>
    have hall := (List.findIdx?_eq_none_iff).1 hf
    rw [List.map_append, List.nodup_append]
    refine ⟨h, List.nodup_singleton _, ?_⟩
    intro a ha hb
    simp only [List.map_cons, List.map_nil, List.mem_singleton] at hb
    subst hb
    obtain ⟨x, hx, hxk⟩ := List.mem_map.1 ha
    have := hall x hx
    rw [hxk] at this
    simp at this

theorem upsertByKey_key_mem {α : Type} (key : α → String) (l : List α) (r : α) :
    key r ∈ (upsertByKey key l r).map key := by
  unfold upsertByKey
  cases hf : l.findIdx? (fun i => key i == key r) with
  | some i =>
    obtain ⟨hlen, hidx⟩ := (List.findIdx?_eq_some_iff_findIdx_eq).1 hf
    rw [List.map_set]
    have hi2 : i < ((l.map key).set i (key r)).length := by
      simpa using hlen
    have he : ((l.map key).set i (key r)).get ⟨i, hi2⟩ = key r :=
      List.getElem_set_self (l := l.map key) (i := i) (a := key r) hi2
    have hm : ((l.map key).set i (key r)).get ⟨i, hi2⟩ ∈ (l.map key).set i (key r) :=
      List.get_mem _ _ hi2
    rw [he] at hm
    exact hm
  | none =>
    simp [List.map_append]

theorem upsertByKey_length_of_key_mem {α : Type} (key : α → String) (l : List α) (r : α)
    (h : key r ∈ l.map key) : (upsertByKey key l r).length = l.length := by
  unfold upsertByKey
  cases hf : l.findIdx? (fun i => key i == key r) with
  | some i => simp
  | none =>
    exfalso
    have hall := (List.findIdx?_eq_none_iff).1 hf
    obtain ⟨x, hx, hxk⟩ := List.mem_map.1 h
    have := hall x hx
    rw [hxk] at this
    simp at this

/-- C1: for every registry whose slugs are pairwise distinct, the slug-keyed
upsert of the router `import` mutation and of the library `addImport`, and the
`removeImport` filter, again yield pairwise-distinct slugs; and upserting a
record whose slug is already present keeps the registry length unchanged
(overwrite, not duplicate). -/
theorem registry_upsert_preserves_distinct_slugs
    (recs : List ImportRecord) (r r2 : ImportRecord) (sl : String)
    (entries : List ImportEntry) (e : ImportEntry) :
    ((recs.map (fun i => i.slug)).Nodup →
      ((addImportUpsert recs r).map (fun i => i.slug)).Nodup ∧
      ((removeImportFilter recs sl).map (fun i => i.slug)).Nodup) ∧
    ((entries.map (fun i => i.slug)).Nodup →
      ((routerUpsert entries e).map (fun i => i.slug)).Nodup) ∧
    (r2.slug = r.slug →
      (addImportUpsert (addImportUpsert recs r) r2).length =
        (addImportUpsert recs r).length) := by
  refine ⟨fun h => ⟨?_, ?_⟩, fun h => ?_, fun h => ?_⟩
  · exact upsertByKey_map_nodup (fun i => i.slug) recs r h
  · exact h.sublist ((List.filter_sublist recs).map _)
  · exact upsertByKey_map_nodup (fun i => i.slug) entries e h
  · have h1 : (fun i => ImportRecord.slug i) r2 ∈
        (addImportUpsert recs r).map (fun i => i.slug) := by
      have := upsertByKey_key_mem (fun i => ImportRecord.slug i) recs r
      simpa [h] using this
    exact upsertByKey_length_of_key_mem (fun i => i.slug) (addImportUpsert recs r) r2 h1

/-- Witness for C1 at concrete registries. -/
theorem registry_upsert_preserves_distinct_slugs_witness :
    (((addImportUpsert [sampleRecA, sampleRecB] sampleRecA2).map (fun i => i.slug)).Nodup ∧
      ((removeImportFilter [sampleRecA, sampleRecB] "beta").map (fun i => i.slug)).Nodup) ∧
    ((routerUpsert [sampleEntryA] sampleEntryA).map (fun i => i.slug)).Nodup ∧
    (addImportUpsert (addImportUpsert [sampleRecA, sampleRecB] sampleRecA2) sampleRecA2).length =
      (addImportUpsert [sampleRecA, sampleRecB] sampleRecA2).length := by
  have t := registry_upsert_preserves_distinct_slugs [sampleRecA, sampleRecB]
    sampleRecA2 sampleRecA2 "beta" [sampleEntryA] sampleEntryA
  exact ⟨t.1 (by decide), t.2.1 (by decide), t.2.2 rfl⟩

/-- C4: project-type detection checks the markers in the fixed priority order
nodejs, python, docker, golang, rust, returns the type of the first marker
found ignoring later ones, returns "generic" when no marker is present, and in
particular returns "nodejs" (not "python") whenever both `package.json` and
`requirements.txt` are present. -/
theorem detectProjectType_priority (files : List String) :
    ("package.json" ∈ files →
      detectProjectType (some files) = "nodejs") ∧
    ("package.json" ∉ files →
      ("requirements.txt" ∈ files ∨ "pyproject.toml" ∈ files) →
      detectProjectType (some files) = "python") ∧
    ("package.json" ∉ files →
      "requirements.txt" ∉ files →
      "pyproject.toml" ∉ files →
      ("Dockerfile" ∈ files ∨ "docker-compose.yml" ∈ files) →
      detectProjectType (some files) = "docker") ∧
    ("package.json" ∉ files →
      "requirements.txt" ∉ files →
      "pyproject.toml" ∉ files →
      "Dockerfile" ∉ files →
      "docker-compose.yml" ∉ files →
      "go.mod" ∈ files →
      detectProjectType (some files) = "golang") ∧
    ("package.json" ∉ files →
      "requirements.txt" ∉ files →
      "pyproject.toml" ∉ files →
      "Dockerfile" ∉ files →
      "docker-compose.yml" ∉ files →
      "go.mod" ∉ files →
      "Cargo.toml" ∈ files →
      detectProjectType (some files) = "rust") ∧
    ("package.json" ∉ files →
      "requirements.txt" ∉ files →
      "pyproject.toml" ∉ files →
      "Dockerfile" ∉ files →
      "docker-compose.yml" ∉ files →
      "go.mod" ∉ files →
      "Cargo.toml" ∉ files →
      detectProjectType (some files) = "generic") ∧
    ("package.json" ∈ files →
      "requirements.txt" ∈ files →
      detectProjectType (some files) = "nodejs") := by
  refine ⟨?_, ?_, ?_, ?_, ?_, ?_, ?_⟩ <;> intros <;> simp [detectProjectType, *]

/-- Witness for C4 at concrete file lists. -/
theorem detectProjectType_priority_witness :
    detectProjectType (some ["package.json", "requirements.txt"]) = "nodejs" ∧
    detectProjectType (some ["requirements.txt", "Dockerfile"]) = "python" ∧
    detectProjectType (some ["README.md"]) = "generic" := by
  refine ⟨?_, ?_, ?_⟩
  · exact (detectProjectType_priority ["package.json", "requirements.txt"]).2.2.2.2.2.2
      (by decide) (by decide)
  · exact (detectProjectType_priority ["requirements.txt", "Dockerfile"]).2.1
      (by decide) (Or.inl (by decide))
  · exact (detectProjectType_priority ["README.md"]).2.2.2.2.2.1
      (by decide) (by decide) (by decide) (by decide) (by decide) (by decide) (by decide)

/-- C2: for the URL `https://github.com/acme/widget` with a repository root
listing containing only `package.json`, the parsed triple is
`(acme, widget, main)` and the generated manifest has project type "nodejs",
install-method resources cpu 1 / ram 1024 / hdd 8, interface port 3000 and
slug "widget" (for any repository description and clock value). -/
theorem widget_example_manifest (info : RepoInfo) (today : String) :
    parseGitHubUrl "https://github.com/acme/widget" = .ok ("acme", "widget", "main") ∧
    ((generateManifest "acme" "widget" "main" (some ["package.json"]) info none
        today).source.project_type = "nodejs" ∧
      (generateManifest "acme" "widget" "main" (some ["package.json"]) info none
        today).interface_port = some 3000 ∧
      (generateManifest "acme" "widget" "main" (some ["package.json"]) info none
        today).slug = "widget" ∧
      (generateManifest "acme" "widget" "main" (some ["package.json"]) info none
        today).install_methods.map
          (fun im => (im.resources.cpu, im.resources.ram, im.resources.hdd)) =
        [(1, 1024, 8)]) := by
  refine ⟨rfl, rfl, rfl, rfl, rfl⟩

/-! ### C7: manifest probing lemmas -/

theorem probeLocations_eq_some_iff (probe : String → ProbeOutcome) :
    ∀ (locs : List String) (m : ScriptManifest),
      probeLocations probe locs = some m ↔
        ∃ pre loc post, locs = pre ++ loc :: post ∧ probe loc = .found m ∧
          ∀ l ∈ pre, ∀ m2, probe l ≠ .found m2 := by
  intro locs
  induction locs with
  | nil =>
    intro m
    constructor
    · intro h; simp [probeLocations] at h
    · rintro ⟨pre, loc, post, hdec, -, -⟩
      exact absurd hdec (by simp)
  | cons loc0 rest ih =>
    intro m
    constructor
    · intro h
      unfold probeLocations at h
      cases hp : probe loc0 with
      | found m0 =>
        rw [hp] at h
        simp only [Option.some.injEq] at h
        exact ⟨[], loc0, rest, by simp, by rw [hp, h], by simp⟩
      | apiError =>
        rw [hp] at h
        obtain ⟨pre, loc, post, hdec, hfound, hpre⟩ := (ih m).1 h
        refine ⟨loc0 :: pre, loc, post, by simp [hdec], hfound, ?_⟩
        intro l hl m2
        rcases List.mem_cons.1 hl with h0 | h0
        · subst h0; simp [hp]
        · exact hpre l h0 m2
      | fetchError =>
        rw [hp] at h
        obtain ⟨pre, loc, post, hdec, hfound, hpre⟩ := (ih m).1 h
        refine ⟨loc0 :: pre, loc, post, by simp [hdec], hfound, ?_⟩
        intro l hl m2
        rcases List.mem_cons.1 hl with h0 | h0
        · subst h0; simp [hp]
        · exact hpre l h0 m2
      | notOk =>
        rw [hp] at h
        obtain ⟨pre, loc, post, hdec, hfound, hpre⟩ := (ih m).1 h
        refine ⟨loc0 :: pre, loc, post, by simp [hdec], hfound, ?_⟩
        intro l hl m2
        rcases List.mem_cons.1 hl with h0 | h0
        · subst h0; simp [hp]
        · exact hpre l h0 m2
      | badJson =>
        rw [hp] at h
        obtain ⟨pre, loc, post, hdec, hfound, hpre⟩ := (ih m).1 h
        refine ⟨loc0 :: pre, loc, post, by simp [hdec], hfound, ?_⟩
        intro l hl m2
        rcases List.mem_cons.1 hl with h0 | h0
        · subst h0; simp [hp]
        · exact hpre l h0 m2
    · rintro ⟨pre, loc, post, hdec, hfound, hpre⟩
      cases pre with
      | nil =>
        simp only [List.nil_append, List.cons.injEq] at hdec
        obtain ⟨h1, h2⟩ := hdec
        subst h1; subst h2
        unfold probeLocations
        rw [hfound]
      | cons p ps =>
        simp only [List.cons_append, List.cons.injEq] at hdec
        obtain ⟨h1, h2⟩ := hdec
        subst h1
        have hnf := hpre loc0 (by simp)
        unfold probeLocations
        cases hp : probe loc0 with
        | found m0 => exact absurd hp (hnf m0)
        | apiError =>
          exact (ih m).2 ⟨ps, loc, post, h2, hfound, fun l hl m2 => hpre l (by simp [hl]) m2⟩
        | fetchError =>
          exact (ih m).2 ⟨ps, loc, post, h2, hfound, fun l hl m2 => hpre l (by simp [hl]) m2⟩
        | notOk =>
          exact (ih m).2 ⟨ps, loc, post, h2, hfound, fun l hl m2 => hpre l (by simp [hl]) m2⟩
        | badJson =>
          exact (ih m).2 ⟨ps, loc, post, h2, hfound, fun l hl m2 => hpre l (by simp [hl]) m2⟩

theorem probeLocations_eq_none_iff (probe : String → ProbeOutcome) :
    ∀ locs : List String,
      probeLocations probe locs = none ↔ ∀ l ∈ locs, ∀ m2, probe l ≠ .found m2 := by
  intro locs
  induction locs with
  | nil => simp [probeLocations]
  | cons loc0 rest ih =>
    constructor
    · intro h l hl m2
      unfold probeLocations at h
      cases hp : probe loc0 with
      | found m0 => rw [hp] at h; exact absurd h (by simp)
      | apiError =>
        rw [hp] at h
        rcases List.mem_cons.1 hl with h0 | h0
        · subst h0; simp [hp]
        · exact (ih.1 h) l h0 m2
      | fetchError =>
        rw [hp] at h
        rcases List.mem_cons.1 hl with h0 | h0
        · subst h0; simp [hp]
        · exact (ih.1 h) l h0 m2
      | notOk =>
        rw [hp] at h
        rcases List.mem_cons.1 hl with h0 | h0
        · subst h0; simp [hp]
        · exact (ih.1 h) l h0 m2
      | badJson =>
        rw [hp] at h
        rcases List.mem_cons.1 hl with h0 | h0
        · subst h0; simp [hp]
        · exact (ih.1 h) l h0 m2
    · intro h
      unfold probeLocations
      cases hp : probe loc0 with
      | found m0 => exact absurd hp (h loc0 (by simp) m0)
      | apiError => exact ih.2 (fun l hl m2 => h l (by simp [hl]) m2)
      | fetchError => exact ih.2 (fun l hl m2 => h l (by simp [hl]) m2)
      | notOk => exact ih.2 (fun l hl m2 => h l (by simp [hl]) m2)
      | badJson => exact ih.2 (fun l hl m2 => h l (by simp [hl]) m2)

/-- C7: `checkForManifest` probes the four well-known locations in their fixed
order; it returns the parsed manifest of the first location whose probe
succeeds (every earlier location having failed with a network error, non-2xx
response or invalid JSON), and it returns `none` — never an error — exactly
when every location's probe fails. -/
theorem checkForManifest_first_success (probe : String → ProbeOutcome) :
    (∀ m, checkForManifest probe = some m ↔
      ∃ pre loc post, manifestLocations = pre ++ loc :: post ∧ probe loc = .found m ∧
        ∀ l ∈ pre, ∀ m2, probe l ≠ .found m2) ∧
    (checkForManifest probe = none ↔
      ∀ l ∈ manifestLocations, ∀ m2, probe l ≠ .found m2) := by
  exact ⟨fun m => probeLocations_eq_some_iff probe manifestLocations m,
    probeLocations_eq_none_iff probe manifestLocations⟩

/-- C8: if the `import` mutation fails at any step (bad URL, failing metadata
fetch, failing file write, chmod or registry save), the registry document in
the resulting state equals the registry document before the call: the only
registry write is the final `saveConfig`, and no error path reaches past it. -/
theorem importOp_failure_registry_unchanged
    (env : ImportEnv) (input : ImportInput) (s : Store) (e : String) (s2 : Store)
    (h : importOp env input s = .error (e, s2)) : s2.registry = s.registry := by
  unfold importOp at h
  repeat' split at h
  all_goals
    first
    | (simp only [Except.error.injEq, Prod.mk.injEq] at h
       rw [← h.2])
    | simp at h

/-- Witness for C8: a failing manifest-file write aborts the import with the
registry untouched. -/
theorem importOp_failure_registry_unchanged_witness :
    sampleStore.registry = sampleStore.registry :=
  importOp_failure_registry_unchanged sampleEnvWriteFail sampleInput sampleStore
    "write manifest failed" sampleStore rfl

/-- C9: `preview` threads the store through unchanged on both the error and
the success path (no registry or file write), and on success its result holds
the resolved-or-generated manifest together with `"..."` appended to a prefix
of the generated install script of length at most 500. -/
theorem previewOp_frame_spec (env : ImportEnv) (input : ImportInput) (s : Store) :
    (∀ e s2, previewOp env input s = .error (e, s2) → s2 = s) ∧
    (∀ s2 r, previewOp env input s = .ok (s2, r) →
      s2 = s ∧
      (∃ pd, pd <+: (generateInstallScript r.manifest).data ∧ pd.length ≤ 500 ∧
        r.installScriptPreview.data = pd ++ "...".data) ∧
      (match checkForManifest env.probe with
       | some m0 => r.manifest = m0
       | none => ∃ o rp br info, parseGitHubUrl input.url = .ok (o, rp, br) ∧
           env.repoInfo = .ok info ∧
           r.manifest = generateManifest o rp br env.contents info none env.today)) := by
  constructor
  · intro e s2 h
    unfold previewOp at h
    repeat' split at h
    all_goals
      first
      | (simp only [Except.error.injEq, Prod.mk.injEq] at h
         rw [h.2])
      | simp at h
  · intro s2 r h
    unfold previewOp at h
    split at h
    · exact absurd h (by simp)
    · rename_i triple owner repo branch hparse
      cases hprobe : checkForManifest env.probe with
      | some m0 =>
        rw [hprobe] at h
        dsimp only at h
        simp only [Except.ok.injEq, Prod.mk.injEq] at h
        obtain ⟨hs, hr⟩ := h
        subst hs
        refine ⟨rfl, ?_, ?_⟩
        · refine ⟨(generateInstallScript r.manifest).data.take 500, List.take_prefix _ _,
            List.length_take_le _ _, ?_⟩
          rw [← hr]
          simp [String.data_append, ← hr]
        · rw [← hr]
      | none =>
        rw [hprobe] at h
        cases hinfo : env.repoInfo with
        | error e2 =>
          rw [hinfo] at h
          exact absurd h (by simp)
        | ok info =>
          rw [hinfo] at h
          dsimp only at h
          simp only [Except.ok.injEq, Prod.mk.injEq] at h
          obtain ⟨hs, hr⟩ := h
          subst hs
          refine ⟨rfl, ?_, ?_⟩
          · refine ⟨(generateInstallScript r.manifest).data.take 500, List.take_prefix _ _,
              List.length_take_le _ _, ?_⟩
            rw [← hr]
            simp [String.data_append, ← hr]
          · rw [← hr]
            exact ⟨owner, repo, branch, info, hparse, rfl, rfl⟩

/-- Witness for C9 at a successful concrete preview. -/
theorem previewOp_frame_spec_witness :
    sampleStore = sampleStore ∧
    (∃ pd, pd <+: (generateInstallScript samplePreviewResult.manifest).data ∧
      pd.length ≤ 500 ∧ samplePreviewResult.installScriptPreview.data = pd ++ "...".data) ∧
    (match checkForManifest sampleEnvOk.probe with
     | some m0 => samplePreviewResult.manifest = m0
     | none => ∃ o rp br info, parseGitHubUrl sampleInput.url = .ok (o, rp, br) ∧
         sampleEnvOk.repoInfo = .ok info ∧
         samplePreviewResult.manifest =
           generateManifest o rp br sampleEnvOk.contents info none sampleEnvOk.today) :=
  (previewOp_frame_spec sampleEnvOk sampleInput sampleStore).2 sampleStore
    samplePreviewResult rfl

/-- C10: whenever `preview` succeeds, the returned `hasExistingManifest` flag
is `true`, because it is computed (`!!manifest`) from the manifest variable
after the null case has been replaced by a generated manifest. -/
theorem previewOp_hasExistingManifest_true
    (env : ImportEnv) (input : ImportInput) (s : Store) (s2 : Store) (r : PreviewResult)
    (h : previewOp env input s = .ok (s2, r)) : r.hasExistingManifest = true := by
  unfold previewOp at h
  split at h
  · exact absurd h (by simp)
  · cases hprobe : checkForManifest env.probe with
    | some m0 =>
      rw [hprobe] at h
      dsimp only at h
      simp only [Except.ok.injEq, Prod.mk.injEq] at h
      rw [← h.2]
      rfl
    | none =>
      rw [hprobe] at h
      cases hinfo : env.repoInfo with
      | error e2 =>
        rw [hinfo] at h
        exact absurd h (by simp)
      | ok info =>
        rw [hinfo] at h
        dsimp only at h
        simp only [Except.ok.injEq, Prod.mk.injEq] at h
        rw [← h.2]
        rfl

/-- Witness for C10: a preview in which every manifest probe failed (so the
manifest was generated, not fetched) still reports `hasExistingManifest = true`. -/
theorem previewOp_hasExistingManifest_true_witness :
    samplePreviewResult.hasExistingManifest = true :=
  previewOp_hasExistingManifest_true sampleEnvOk sampleInput sampleStore sampleStore
    samplePreviewResult rfl

/-! ### C6: `slugify` lemmas

The collapse step only emits characters of the class `[a-z0-9]` and single
dashes, never two adjacent dashes; on a list that is already of that shape it
is the identity. -/

theorem map_id_of_mem {α : Type} (f : α → α) :
    ∀ l : List α, (∀ c ∈ l, f c = c) → l.map f = l := by
  intro l
  induction l with
  | nil => intro _; rfl
  | cons a t ih =>
    intro h
    simp only [List.map_cons]
    rw [h a (by simp), ih (fun c hc => h c (by simp [hc]))]

theorem collapseRunsAux_mem (p : Char → Bool) :
    ∀ (l : List Char) (b : Bool) (c : Char),
      c ∈ collapseRunsAux p b l → p c = false ∨ c = '-' := by
  intro l
  induction l with
  | nil => intro b c h; simp [collapseRunsAux] at h
  | cons c0 cs ih =>
    intro b c h
    unfold collapseRunsAux at h
    by_cases hp : p c0 = true
    · rw [if_pos hp] at h
      cases b with
      | true => exact ih true c h
      | false =>
        rcases List.mem_cons.1 h with h0 | h0
        · exact Or.inr h0
        · exact ih true c h0
    · rw [if_neg hp] at h
      rcases List.mem_cons.1 h with h0 | h0
      · subst h0; exact Or.inl (by simpa using hp)
      · exact ih false c h0

theorem collapseRunsAux_false_cons (p : Char → Bool) (c0 : Char) (cs : List Char) :
    collapseRunsAux p false (c0 :: cs) =
      if p c0 then '-' :: collapseRunsAux p true cs
      else c0 :: collapseRunsAux p false cs := rfl

theorem collapseRunsAux_true_cons (p : Char → Bool) (c0 : Char) (cs : List Char) :
    collapseRunsAux p true (c0 :: cs) =
      if p c0 then collapseRunsAux p true cs
      else c0 :: collapseRunsAux p false cs := rfl

theorem collapseRunsAux_chain (p : Char → Bool) (hpd : p '-' = true) :
    ∀ l : List Char,
      List.Chain' (fun x y => ¬(x = '-' ∧ y = '-')) (collapseRunsAux p false l) ∧
      List.Chain' (fun x y => ¬(x = '-' ∧ y = '-')) (collapseRunsAux p true l) ∧
      (collapseRunsAux p true l).head? ≠ some '-' := by
  intro l
  induction l with
  | nil => refine ⟨List.chain'_nil, List.chain'_nil, by simp [collapseRunsAux]⟩
  | cons c0 cs ih =>
    obtain ⟨ihf, iht, ihh⟩ := ih
    by_cases hp : p c0 = true
    · refine ⟨?_, ?_, ?_⟩
      · rw [collapseRunsAux_false_cons, if_pos hp, List.chain'_cons']
        refine ⟨?_, iht⟩
        intro y hy hcon
        exact ihh (by rw [hy, hcon.2])
      · rw [collapseRunsAux_true_cons, if_pos hp]
        exact iht
      · rw [collapseRunsAux_true_cons, if_pos hp]
        exact ihh
    · have hc0 : c0 ≠ '-' := by
        intro hc
        rw [hc] at hp
        exact hp hpd
      refine ⟨?_, ?_, ?_⟩
      · rw [collapseRunsAux_false_cons, if_neg hp, List.chain'_cons']
        exact ⟨fun y _ hcon => hc0 hcon.1, ihf⟩
      · rw [collapseRunsAux_true_cons, if_neg hp, List.chain'_cons']
        exact ⟨fun y _ hcon => hc0 hcon.1, ihf⟩
      · rw [collapseRunsAux_true_cons, if_neg hp]
        simp [hc0]

theorem collapseRunsAux_fix (p : Char → Bool) (hpd : p '-' = true) :
    ∀ l : List Char, (∀ c ∈ l, p c = false ∨ c = '-') →
      List.Chain' (fun x y => ¬(x = '-' ∧ y = '-')) l →
      collapseRunsAux p false l = l ∧
        (l.head? ≠ some '-' → collapseRunsAux p true l = l) := by
  intro l
  induction l with
  | nil => intro _ _; exact ⟨rfl, fun _ => rfl⟩
  | cons c0 cs ih =>
    intro hmem hch
    rw [List.chain'_cons'] at hch
    obtain ⟨hrel, hch2⟩ := hch
    have ihm := ih (fun c hc => hmem c (by simp [hc])) hch2
    by_cases hc0 : c0 = '-'
    · subst hc0
      have hhead : cs.head? ≠ some '-' := by
        intro hcon
        exact hrel '-' hcon ⟨rfl, rfl⟩
      constructor
      · rw [collapseRunsAux_false_cons, if_pos hpd, ihm.2 hhead]
      · intro hh
        simp at hh
    · have hp : p c0 = false := by
        rcases hmem c0 (by simp) with h | h
        · exact h
        · exact absurd h hc0
      constructor
      · rw [collapseRunsAux_false_cons, if_neg (by simp [hp]), ihm.1]
      · intro _
        rw [collapseRunsAux_true_cons, if_neg (by simp [hp]), ihm.1]

theorem stripLead_cases (l : List Char) :
    stripLead l = l ∨ ∃ t, l = '-' :: t ∧ stripLead l = t := by
  cases l with
  | nil => exact Or.inl rfl
  | cons c t =>
    by_cases hc : c = '-'
    · subst hc
      exact Or.inr ⟨t, rfl, rfl⟩
    · left
      unfold stripLead
      split
      · rename_i t2 heq
        injection heq with h1 h2
        exact absurd h1 hc
      · rfl

theorem stripLead_eq_self (l : List Char) (h : l.head? ≠ some '-') : stripLead l = l := by
  rcases stripLead_cases l with h1 | ⟨t, hl, _⟩
  · exact h1
  · rw [hl] at h
    simp at h

theorem stripLead_head (l : List Char)
    (hch : List.Chain' (fun x y => ¬(x = '-' ∧ y = '-')) l) :
    (stripLead l).head? ≠ some '-' := by
  cases l with
  | nil => decide
  | cons c t =>
    by_cases hc : c = '-'
    · subst hc
      have he : stripLead ('-' :: t) = t := rfl
      rw [he, List.chain'_cons'] at *
      intro hcon
      exact hch.1 '-' hcon ⟨rfl, rfl⟩
    · rw [stripLead_eq_self (c :: t) (by simp [hc])]
      simp [hc]

theorem stripLead_subset (l : List Char) : stripLead l ⊆ l := by
  rcases stripLead_cases l with h1 | ⟨t, hl, h2⟩
  · rw [h1]
    exact fun a ha => ha
  · rw [h2, hl]
    exact fun a ha => by simp [ha]

theorem stripLead_chain (l : List Char)
    (hch : List.Chain' (fun x y => ¬(x = '-' ∧ y = '-')) l) :
    List.Chain' (fun x y => ¬(x = '-' ∧ y = '-')) (stripLead l) := by
  rcases stripLead_cases l with h1 | ⟨t, hl, h2⟩
  · rw [h1]
    exact hch
  · rw [h2]
    subst hl
    exact (List.chain'_cons'.1 hch).2

theorem stripTrail_subset (l : List Char) : stripTrail l ⊆ l := by
  unfold stripTrail
  split
  · exact List.dropLast_subset l
  · exact fun a ha => ha

theorem stripTrail_chain (l : List Char)
    (hch : List.Chain' (fun x y => ¬(x = '-' ∧ y = '-')) l) :
    List.Chain' (fun x y => ¬(x = '-' ∧ y = '-')) (stripTrail l) := by
  unfold stripTrail
  split
  · exact List.Chain'.infix hch (List.IsPrefix.isInfix (List.dropLast_prefix l))
  · exact hch

theorem stripTrail_head (l : List Char) (h : l.head? ≠ some '-') :
    (stripTrail l).head? ≠ some '-' := by
  unfold stripTrail
  split
  · cases l with
    | nil => simp
    | cons c cs =>
      cases cs with
      | nil => simp
      | cons c2 cs2 => simpa using h
  · exact h

theorem take_head {α : Type} (n : Nat) (l : List α) (a : α)
    (h : (l.take n).head? = some a) : l.head? = some a := by
  cases l with
  | nil => simp at h
  | cons c cs =>
    cases n with
    | zero => simp at h
    | succ k => simpa using h

theorem toLower_eq_self_of (c : Char) (h : isLowerAlnum c = true ∨ c = '-') :
    Char.toLower c = c := by
  rcases h with h | h
  · simp only [isLowerAlnum, Bool.or_eq_true, Bool.and_eq_true, decide_eq_true_eq] at h
    have hb : 90 < c.toNat ∨ c.toNat < 65 := by
      rcases h with ⟨h1, h2⟩ | ⟨h1, h2⟩
      · have g1 : 97 ≤ c.toNat := h1
        omega
      · have g1 : c.toNat ≤ 57 := h2
        omega
    unfold Char.toLower
    rw [if_neg]
    omega
  · subst h
    decide

/-- C6 (amended part): every character of `slugify x` is in the class
`[a-z0-9-]`, and `slugify` is idempotent at every `x` whose slug does not end
in a dash (a trailing dash can only arise from the 50-character truncation). -/
theorem slugify_shape_and_conditional_idem (x : String) :
    (∀ c ∈ (slugify x).data, isLowerAlnum c = true ∨ c = '-') ∧
    ((slugify x).data.getLast? ≠ some '-' → slugify (slugify x) = slugify x) := by
  have hpd : (fun c => !(isLowerAlnum c)) '-' = true := by decide
  have hy : (slugify x).data =
      (stripTrail (stripLead
        (collapseRunsAux (fun c => !(isLowerAlnum c)) false
          (x.data.map Char.toLower)))).take 50 := rfl
  have hmemP : ∀ c ∈ (slugify x).data,
      (fun c => !(isLowerAlnum c)) c = false ∨ c = '-' := by
    intro c hc
    rw [hy] at hc
    exact collapseRunsAux_mem (fun c => !(isLowerAlnum c)) (x.data.map Char.toLower) false c
      (stripLead_subset _ (stripTrail_subset _ (List.take_subset 50 _ hc)))
  have hmem : ∀ c ∈ (slugify x).data, isLowerAlnum c = true ∨ c = '-' := by
    intro c hc
    rcases hmemP c hc with h | h
    · left
      simpa using h
    · exact Or.inr h
  refine ⟨hmem, ?_⟩
  intro hlast
  have hchW := (collapseRunsAux_chain (fun c => !(isLowerAlnum c)) hpd (x.data.map Char.toLower)).1
  have hchY : List.Chain' (fun a b => ¬(a = '-' ∧ b = '-')) (slugify x).data := by
    rw [hy]
    exact List.Chain'.infix (stripTrail_chain _ (stripLead_chain _ hchW))
      (List.IsPrefix.isInfix (List.take_prefix 50 _))
  have hheadY : (slugify x).data.head? ≠ some '-' := by
    intro hcon
    rw [hy] at hcon
    exact stripTrail_head _ (stripLead_head _ hchW) (take_head 50 _ '-' hcon)
  have step1 : (slugify x).data.map Char.toLower = (slugify x).data :=
    map_id_of_mem _ _ (fun c hc => toLower_eq_self_of c (hmem c hc))
  have step2 : collapseRunsAux (fun c => !(isLowerAlnum c)) false (slugify x).data =
      (slugify x).data :=
    (collapseRunsAux_fix (fun c => !(isLowerAlnum c)) hpd (slugify x).data hmemP hchY).1
  have step3 : stripLead (slugify x).data = (slugify x).data :=
    stripLead_eq_self _ hheadY
  have step4 : stripTrail (slugify x).data = (slugify x).data := by
    unfold stripTrail
    rw [if_neg hlast]
  have step5 : (slugify x).data.take 50 = (slugify x).data := by
    apply List.take_of_length_le
    rw [hy]
    exact List.length_take_le 50 _
  show String.mk ((stripTrail (stripLead
    (collapseRunsAux (fun c => !(isLowerAlnum c)) false
      ((slugify x).data.map Char.toLower)))).take 50) = slugify x
  rw [step1, step2, step3, step4, step5]

/-- C6 counterexample: `slugify` is not idempotent. For 49 `'a'`s followed by
`"!b"`, `slugify` yields 49 `'a'`s and a trailing dash (the dash separating
`a`s from `b` survives at position 49 and the truncation cuts the `b`), and a
second `slugify` strips that trailing dash. -/
theorem slugify_not_idempotent :
    slugify (slugify slugifyCounterexampleInput) ≠ slugify slugifyCounterexampleInput := by
  decide

/-- Witness for the amended C6 idempotence at a concrete input. -/
theorem slugify_shape_and_conditional_idem_witness :
    slugify (slugify "Hello World") = slugify "Hello World" :=
  (slugify_shape_and_conditional_idem "Hello World").2 (by decide)

/-! ### C3: URL parser lemmas -/

theorem takeWhile_dropWhile_append (p : Char → Bool) :
    ∀ a : List Char, (∀ c ∈ a, p c = true) →
      ∀ (x : Char) (xs : List Char), p x = false →
        (a ++ x :: xs).takeWhile p = a ∧ (a ++ x :: xs).dropWhile p = x :: xs := by
  intro a
  induction a with
  | nil =>
    intro _ x xs hx
    constructor
    · simp [List.takeWhile_cons, hx]
    · simp [List.dropWhile_cons, hx]
  | cons c cs ih =>
    intro hall x xs hx
    have hc : p c = true := hall c (by simp)
    have ihr := ih (fun d hd => hall d (by simp [hd])) x xs hx
    constructor
    · simp only [List.cons_append, List.takeWhile_cons, hc, if_true]
      rw [ihr.1]
    · simp only [List.cons_append, List.dropWhile_cons, hc, if_true]
      rw [ihr.2]

theorem takeWhile_dropWhile_all (p : Char → Bool) :
    ∀ a : List Char, (∀ c ∈ a, p c = true) →
      a.takeWhile p = a ∧ a.dropWhile p = [] := by
  intro a
  induction a with
  | nil => intro _; exact ⟨rfl, rfl⟩
  | cons c cs ih =>
    intro hall
    have hc : p c = true := hall c (by simp)
    have ihr := ih (fun d hd => hall d (by simp [hd]))
    constructor
    · simp only [List.takeWhile_cons, hc, if_true]
      rw [ihr.1]
    · simp only [List.dropWhile_cons, hc, if_true]
      exact ihr.2

theorem isPrefixOf_append_self (l t : List Char) : l.isPrefixOf (l ++ t) = true := by
  rw [List.isPrefixOf_iff_prefix]
  exact List.prefix_append l t

theorem ghParseAt_nobranch (o r : List Char)
    (ho : o ≠ []) (hos : ∀ c ∈ o, c ≠ '/')
    (hr : r ≠ []) (hrs : ∀ c ∈ r, c ≠ '/') :
    ghParseAt (ghLit ++ (o ++ '/' :: r)) = some (o, r, none) := by
  have hpo : ∀ c ∈ o, (fun c => decide (c ≠ '/')) c = true :=
    fun c hc => decide_eq_true (hos c hc)
  have hpr : ∀ c ∈ r, (fun c => decide (c ≠ '/')) c = true :=
    fun c hc => decide_eq_true (hrs c hc)
  have hslash : (fun c => decide (c ≠ '/')) '/' = false := by decide
  have h1 := takeWhile_dropWhile_append (fun c => decide (c ≠ '/')) o hpo '/' r hslash
  have h2 := takeWhile_dropWhile_all (fun c => decide (c ≠ '/')) r hpr
  unfold ghParseAt
  rw [if_pos (isPrefixOf_append_self ghLit (o ++ '/' :: r))]
  simp only [List.drop_left]
  rw [h1.1, h1.2, if_neg ho]
  simp only []
  rw [h2.1, h2.2, if_neg hr]
  have htp : treeLit.isPrefixOf ([] : List Char) = false := rfl
  rw [htp]
  simp

theorem ghParseAt_branch (o r b : List Char)
    (ho : o ≠ []) (hos : ∀ c ∈ o, c ≠ '/')
    (hr : r ≠ []) (hrs : ∀ c ∈ r, c ≠ '/')
    (hb : b ≠ []) (hbn : ∀ c ∈ b, c ≠ '\n') :
    ghParseAt (ghLit ++ (o ++ '/' :: (r ++ (treeLit ++ b)))) = some (o, r, some b) := by
  have hpo : ∀ c ∈ o, (fun c => decide (c ≠ '/')) c = true :=
    fun c hc => decide_eq_true (hos c hc)
  have hpr : ∀ c ∈ r, (fun c => decide (c ≠ '/')) c = true :=
    fun c hc => decide_eq_true (hrs c hc)
  have hpb : ∀ c ∈ b, (fun c => decide (c ≠ '\n')) c = true :=
    fun c hc => decide_eq_true (hbn c hc)
  have hslash : (fun c => decide (c ≠ '/')) '/' = false := by decide
  have h1 := takeWhile_dropWhile_append (fun c => decide (c ≠ '/')) o hpo '/'
    (r ++ (treeLit ++ b)) hslash
  have htree : treeLit ++ b = '/' :: ("tree/".data ++ b) := rfl
  have h2 : (r ++ (treeLit ++ b)).takeWhile (fun c => decide (c ≠ '/')) = r ∧
      (r ++ (treeLit ++ b)).dropWhile (fun c => decide (c ≠ '/')) = treeLit ++ b := by
    rw [htree]
    exact takeWhile_dropWhile_append (fun c => decide (c ≠ '/')) r hpr '/'
      ("tree/".data ++ b) hslash
  have h3 := takeWhile_dropWhile_all (fun c => decide (c ≠ '\n')) b hpb
  unfold ghParseAt
  rw [if_pos (isPrefixOf_append_self ghLit _)]
  simp only [List.drop_left]
  rw [h1.1, h1.2, if_neg ho]
  simp only []
  rw [h2.1, h2.2, if_neg hr]
  rw [if_pos (isPrefixOf_append_self treeLit b)]
  simp only [List.drop_left]
  rw [h3.1, if_neg hb]

theorem ghSearch_cons_of_ne (c : Char) (cs : List Char) (h : c ≠ 'g') :
    ghSearch (c :: cs) = ghSearch cs := by
  have hgc : ('g' == c) = false := by
    simp [Ne.symm h]
  have hp : ghLit.isPrefixOf (c :: cs) = false := by
    have he : ghLit = 'g' :: "ithub.com/".data := rfl
    rw [he]
    simp [List.isPrefixOf, hgc]
  have hpa : ghParseAt (c :: cs) = none := by
    unfold ghParseAt
    rw [if_neg (by simp [hp])]
  show (match ghParseAt (c :: cs) with
    | some r => some r
    | none => ghSearch cs) = ghSearch cs
  rw [hpa]

theorem ghSearch_at_ghLit (x : List Char) (res : List Char × List Char × Option (List Char))
    (h : ghParseAt (ghLit ++ x) = some res) : ghSearch (ghLit ++ x) = some res := by
  have he : ghLit ++ x = 'g' :: ("ithub.com/".data ++ x) := rfl
  rw [he] at h ⊢
  show (match ghParseAt ('g' :: ("ithub.com/".data ++ x)) with
    | some r => some r
    | none => ghSearch ("ithub.com/".data ++ x)) = some res
  rw [h]

theorem ghSearch_https (t : List Char) :
    ghSearch ("https://".data ++ t) = ghSearch t := by
  have he : "https://".data ++ t =
      'h' :: 't' :: 't' :: 'p' :: 's' :: ':' :: '/' :: '/' :: t := rfl
  rw [he]
  rw [ghSearch_cons_of_ne _ _ (by decide), ghSearch_cons_of_ne _ _ (by decide),
    ghSearch_cons_of_ne _ _ (by decide), ghSearch_cons_of_ne _ _ (by decide),
    ghSearch_cons_of_ne _ _ (by decide), ghSearch_cons_of_ne _ _ (by decide),
    ghSearch_cons_of_ne _ _ (by decide), ghSearch_cons_of_ne _ _ (by decide)]

theorem ghSearch_http (t : List Char) :
    ghSearch ("http://".data ++ t) = ghSearch t := by
  have he : "http://".data ++ t =
      'h' :: 't' :: 't' :: 'p' :: ':' :: '/' :: '/' :: t := rfl
  rw [he]
  rw [ghSearch_cons_of_ne _ _ (by decide), ghSearch_cons_of_ne _ _ (by decide),
    ghSearch_cons_of_ne _ _ (by decide), ghSearch_cons_of_ne _ _ (by decide),
    ghSearch_cons_of_ne _ _ (by decide), ghSearch_cons_of_ne _ _ (by decide),
    ghSearch_cons_of_ne _ _ (by decide)]

theorem ghParseAt_shape (l : List Char) (res : List Char × List Char × Option (List Char))
    (h : ghParseAt l = some res) :
    ∃ o r rest, l = ghLit ++ o ++ '/' :: r ++ rest ∧ o ≠ [] ∧ r ≠ [] ∧
      (∀ c ∈ o, c ≠ '/') ∧ (∀ c ∈ r, c ≠ '/') := by
  unfold ghParseAt at h
  split at h
  case isFalse => exact absurd h (by simp)
  case isTrue hpre =>
    obtain ⟨t, ht⟩ := List.isPrefixOf_iff_prefix.1 hpre
    dsimp only at h
    have hd : List.drop ghLit.length l = t := by
      rw [← ht]
      exact List.drop_left _ _
    rw [hd] at h
    split at h
    case isTrue => exact absurd h (by simp)
    case isFalse honil =>
      split at h
      case h_2 => exact absurd h (by simp)
      case h_1 rest2 heq =>
        split at h
        case isTrue => exact absurd h (by simp)
        case isFalse hrnil =>
          refine ⟨List.takeWhile (fun c => decide (c ≠ '/')) t,
            List.takeWhile (fun c => decide (c ≠ '/')) rest2,
            List.dropWhile (fun c => decide (c ≠ '/')) rest2, ?_, honil, hrnil, ?_, ?_⟩
          · have hT : List.takeWhile (fun c => decide (c ≠ '/')) t ++ '/' :: rest2 = t := by
              rw [← heq]
              exact List.takeWhile_append_dropWhile _ _
            have hR : List.takeWhile (fun c => decide (c ≠ '/')) rest2 ++
                List.dropWhile (fun c => decide (c ≠ '/')) rest2 = rest2 :=
              List.takeWhile_append_dropWhile _ _
            calc l = ghLit ++ t := ht.symm
              _ = ghLit ++ (List.takeWhile (fun c => decide (c ≠ '/')) t ++ '/' :: rest2) := by
                  rw [hT]
              _ = ghLit ++ (List.takeWhile (fun c => decide (c ≠ '/')) t ++ '/' ::
                    (List.takeWhile (fun c => decide (c ≠ '/')) rest2 ++
                     List.dropWhile (fun c => decide (c ≠ '/')) rest2)) := by rw [hR]
              _ = ghLit ++ List.takeWhile (fun c => decide (c ≠ '/')) t ++ '/' ::
                    List.takeWhile (fun c => decide (c ≠ '/')) rest2 ++
                    List.dropWhile (fun c => decide (c ≠ '/')) rest2 := by
                  simp [List.append_assoc]
          · intro c hc hcon
            have hmt := List.mem_takeWhile_imp hc
            rw [hcon] at hmt
            simp at hmt
          · intro c hc hcon
            have hmt := List.mem_takeWhile_imp hc
            rw [hcon] at hmt
            simp at hmt

theorem ghSearch_shape :
    ∀ (l : List Char) (res : List Char × List Char × Option (List Char)),
      ghSearch l = some res → ghShape l := by
  intro l
  induction l with
  | nil => intro res h; simp [ghSearch] at h
  | cons c cs ih =>
    intro res h
    have hun : ghSearch (c :: cs) = (match ghParseAt (c :: cs) with
      | some r => some r
      | none => ghSearch cs) := rfl
    rw [hun] at h
    cases hpa : ghParseAt (c :: cs) with
    | some r2 =>
      obtain ⟨o, r, rest, hdec, ho, hr, hos, hrs⟩ := ghParseAt_shape _ _ hpa
      exact ⟨[], o, r, rest, by simp [hdec], ho, hr, hos, hrs⟩
    | none =>
      rw [hpa] at h
      obtain ⟨pre, o, r, rest, hdec, ho, hr, hos, hrs⟩ := ih res h
      exact ⟨c :: pre, o, r, rest, by simp [hdec], ho, hr, hos, hrs⟩

theorem ghShape_length (s : List Char) (h : ghShape s) : 14 ≤ s.length := by
  obtain ⟨pre, o, r, rest, hdec, ho, hr, _, _⟩ := h
  have hgl : ghLit.length = 11 := rfl
  have h1 : 1 ≤ o.length := List.length_pos.2 ho
  have h2 : 1 ≤ r.length := List.length_pos.2 hr
  rw [hdec]
  simp [List.length_append, hgl]
  omega

/-- C3: on every URL admitted by `GitHubUrlSchema` (http or https scheme,
owner of word characters and dashes, repo of word characters, dots and dashes,
optional `/tree/` branch), `parseGitHubUrl` returns exactly that owner, the
repo with a trailing `.git` stripped, and the branch (or "main" when no
`/tree/` suffix is present); and on every string that does not contain the
`github.com/<owner>/<repo>` shape anywhere it fails with the
"Invalid GitHub URL" error. -/
theorem parseGitHubUrl_spec :
    (∀ (secure : Bool) (o r : String) (b : Option String),
      validOwner o → validRepo r → (∀ bs, b = some bs → validBranch bs) →
      parseGitHubUrl (mkGitHubUrl secure o r b) =
        .ok (o, String.mk (stripDotGit r.data),
          match b with | some bs => bs | none => "main")) ∧
    (∀ s : String, ¬ ghShape s.data → parseGitHubUrl s = .error "Invalid GitHub URL") := by
  constructor
  · intro secure o r b hvo hvr hvb
    have ho : o.data ≠ [] := hvo.1
    have hr : r.data ≠ [] := hvr.1
    have hosl : ∀ c ∈ o.data, c ≠ '/' := by
      intro c hc hcon
      rcases hvo.2 c hc with h | h <;> rw [hcon] at h <;> exact absurd h (by decide)
    have hrsl : ∀ c ∈ r.data, c ≠ '/' := by
      intro c hc hcon
      rcases hvr.2 c hc with h | h | h <;> rw [hcon] at h <;> exact absurd h (by decide)
    cases b with
    | none =>
      have hparse := ghParseAt_nobranch o.data r.data ho hosl hr hrsl
      have hs1 := ghSearch_at_ghLit (o.data ++ '/' :: r.data) _ hparse
      cases secure with
      | true =>
        have h0 : (mkGitHubUrl true o r none).data =
            (((("https://".data ++ ghLit) ++ o.data) ++ ['/']) ++ r.data) ++ [] := rfl
        have hdata : (mkGitHubUrl true o r none).data =
            "https://".data ++ (ghLit ++ (o.data ++ '/' :: r.data)) := by
          rw [h0]
          simp [List.append_assoc]
        unfold parseGitHubUrl
        rw [hdata, ghSearch_https, hs1]
      | false =>
        have h0 : (mkGitHubUrl false o r none).data =
            (((("http://".data ++ ghLit) ++ o.data) ++ ['/']) ++ r.data) ++ [] := rfl
        have hdata : (mkGitHubUrl false o r none).data =
            "http://".data ++ (ghLit ++ (o.data ++ '/' :: r.data)) := by
          rw [h0]
          simp [List.append_assoc]
        unfold parseGitHubUrl
        rw [hdata, ghSearch_http, hs1]
    | some bs =>
      have hvbs := hvb bs rfl
      have hb : bs.data ≠ [] := hvbs.1
      have hbn : ∀ c ∈ bs.data, c ≠ '\n' := by
        intro c hc hcon
        rcases hvbs.2 c hc with h | h | h <;> rw [hcon] at h <;> exact absurd h (by decide)
      have hparse := ghParseAt_branch o.data r.data bs.data ho hosl hr hrsl hb hbn
      have hs1 := ghSearch_at_ghLit (o.data ++ '/' :: (r.data ++ (treeLit ++ bs.data))) _ hparse
      cases secure with
      | true =>
        have h0 : (mkGitHubUrl true o r (some bs)).data =
            (((("https://".data ++ ghLit) ++ o.data) ++ ['/']) ++ r.data) ++
              (treeLit ++ bs.data) := rfl
        have hdata : (mkGitHubUrl true o r (some bs)).data =
            "https://".data ++ (ghLit ++ (o.data ++ '/' :: (r.data ++ (treeLit ++ bs.data)))) := by
          rw [h0]
          simp [List.append_assoc]
        unfold parseGitHubUrl
        rw [hdata, ghSearch_https, hs1]
      | false =>
        have h0 : (mkGitHubUrl false o r (some bs)).data =
            (((("http://".data ++ ghLit) ++ o.data) ++ ['/']) ++ r.data) ++
              (treeLit ++ bs.data) := rfl
        have hdata : (mkGitHubUrl false o r (some bs)).data =
            "http://".data ++ (ghLit ++ (o.data ++ '/' :: (r.data ++ (treeLit ++ bs.data)))) := by
          rw [h0]
          simp [List.append_assoc]
        unfold parseGitHubUrl
        rw [hdata, ghSearch_http, hs1]
  · intro s hshape
    cases hgs : ghSearch s.data with
    | none =>
      unfold parseGitHubUrl
      rw [hgs]
    | some res =>
      exact absurd (ghSearch_shape s.data res hgs) hshape

/-- Witness for C3: a concrete https URL with a branch, and the non-matching
string "hello". -/
theorem parseGitHubUrl_spec_witness :
    parseGitHubUrl (mkGitHubUrl true "acme" "widget" (some "dev")) =
      .ok ("acme", String.mk (stripDotGit "widget".data), "dev") ∧
    parseGitHubUrl "hello" = .error "Invalid GitHub URL" := by
  constructor
  · exact parseGitHubUrl_spec.1 true "acme" "widget" (some "dev") ⟨by decide, by decide⟩
      ⟨by decide, by decide⟩
      (fun bs hbs => by injection hbs with hh; exact hh ▸ ⟨by decide, by decide⟩)
  · exact parseGitHubUrl_spec.2 "hello"
      (fun h => absurd (ghShape_length _ h) (by decide))

/-! ### C5: install-script lemmas

Substring presence is shown by locating a template chunk; substring absence
(for the docker case) by showing that a two-character pattern of the target
never occurs in any chunk nor across any chunk boundary. -/

theorem inf_right {l t : List Char} (s : List Char) (h : l <:+: t) : l <:+: s ++ t := by
  obtain ⟨u, v, huv⟩ := h
  exact ⟨s ++ u, v, by rw [← huv]; simp [List.append_assoc]⟩

theorem inf_left {l s : List Char} (t : List Char) (h : l <:+: s) : l <:+: s ++ t := by
  obtain ⟨u, v, huv⟩ := h
  exact ⟨u, v ++ t, by rw [← huv]; simp [List.append_assoc]⟩

theorem pair_infix_append (a b : Char) :
    ∀ s t : List Char, ([a, b] <:+: s ++ t) →
      ([a, b] <:+: s) ∨ ([a, b] <:+: t) ∨ t.head? = some b := by
  intro s
  induction s with
  | nil =>
    intro t h
    rw [List.nil_append] at h
    exact Or.inr (Or.inl h)
  | cons c s2 ih =>
    intro t h
    rw [List.cons_append, List.infix_cons_iff] at h
    rcases h with h | h
    · rw [List.cons_prefix_cons] at h
      obtain ⟨hac, h2⟩ := h
      cases s2 with
      | nil =>
        right; right
        obtain ⟨u, hu⟩ := h2
        rw [List.nil_append] at hu
        rw [← hu]
        rfl
      | cons d s3 =>
        left
        rw [List.cons_append, List.cons_prefix_cons] at h2
        obtain ⟨hbd, _⟩ := h2
        subst hac
        subst hbd
        exact ⟨[], s3, by simp⟩
    · rcases ih t h with h1 | h1 | h1
      · left
        obtain ⟨u, v, huv⟩ := h1
        exact ⟨c :: u, v, by rw [← huv]; simp⟩
      · exact Or.inr (Or.inl h1)
      · exact Or.inr (Or.inr h1)

theorem chunk_ok_of_not_mem (a b : Char) (l : List Char) (h : b ∉ l) :
    ¬([a, b] <:+: l) ∧ l.head? ≠ some b := by
  constructor
  · intro hinf
    exact h (hinf.subset (by simp))
  · intro hh
    cases l with
    | nil => simp at hh
    | cons c cs =>
      simp at hh
      exact h (by simp [hh])

theorem not_pair_of_chunks (a b : Char) :
    ∀ ls : List (List Char),
      (∀ l ∈ ls, ¬([a, b] <:+: l) ∧ l.head? ≠ some b) →
      ¬([a, b] <:+: catChunks ls) ∧ (catChunks ls).head? ≠ some b := by
  intro ls
  induction ls with
  | nil =>
    intro _
    constructor
    · intro h
      have := List.eq_nil_of_infix_nil h
      simp at this
    · simp [catChunks]
  | cons c cs ih =>
    intro hall
    have hc := hall c (by simp)
    have ihr := ih (fun l hl => hall l (by simp [hl]))
    have hcat : catChunks (c :: cs) = c ++ catChunks cs := rfl
    constructor
    · rw [hcat]
      intro h
      rcases pair_infix_append a b c (catChunks cs) h with h1 | h1 | h1
      · exact hc.1 h1
      · exact ihr.1 h1
      · exact ihr.2 h1
    · rw [hcat]
      cases c with
      | nil => simpa using ihr.2
      | cons d ds => simpa using hc.2

set_option maxRecDepth 2000 in
/-- C5: for manifests of project type nodejs, python and golang the generated
install script contains a service-unit definition with `Restart=always`, a
10-second restart delay (`RestartSec=10`) and an `ExecStart` line pointing at
that runtime's entrypoint; for docker manifests (whose interpolated fields
contain no `=`, as slugs, repo coordinates and sensible names do) the script
contains no persistent service section: neither `Restart=always` nor
`RestartSec=10` occurs anywhere in it. -/
theorem generateInstallScript_service_spec (m : ScriptManifest) :
    (m.source.project_type = "nodejs" →
      strContains (generateInstallScript m) "Restart=always" ∧
      strContains (generateInstallScript m) "RestartSec=10" ∧
      strContains (generateInstallScript m) "ExecStart=/usr/bin/npm start") ∧
    (m.source.project_type = "python" →
      strContains (generateInstallScript m) "Restart=always" ∧
      strContains (generateInstallScript m) "RestartSec=10" ∧
      strContains (generateInstallScript m)
        ("ExecStart=/opt/" ++ m.slug ++ "/venv/bin/python -m app")) ∧
    (m.source.project_type = "golang" →
      strContains (generateInstallScript m) "Restart=always" ∧
      strContains (generateInstallScript m) "RestartSec=10" ∧
      strContains (generateInstallScript m) ("ExecStart=/opt/" ++ m.slug ++ "/app")) ∧
    (m.source.project_type = "docker" →
      '=' ∉ m.name.data → '=' ∉ m.slug.data → '=' ∉ m.source.owner.data →
      '=' ∉ m.source.repo.data → '=' ∉ m.source.branch.data →
      ¬ strContains (generateInstallScript m) "Restart=always" ∧
      ¬ strContains (generateInstallScript m) "RestartSec=10") := by
  refine ⟨?_, ?_, ?_, ?_⟩
  · intro h
    have hgen : generateInstallScript m =
        scriptHdrA ++ m.name ++ scriptHdrB ++ m.source.owner ++ "/" ++ m.source.repo ++
          scriptMid ++ nodeDeps ++ cloneA ++ m.source.branch ++ cloneB ++ m.source.owner ++
          "/" ++ m.source.repo ++ cloneC ++ m.slug ++ cloneD ++ m.slug ++ cloneE ++
          nodeBuild ++ "\n" ++
          (sbA ++ m.slug ++ sbB ++ m.name ++ sbC ++ m.slug ++ sbD ++
            "ExecStart=/usr/bin/npm start" ++ sbE ++ m.slug ++ sbF) ++
          scriptTail := by
      unfold generateInstallScript
      rw [h]
      rfl
    refine ⟨?_, ?_, ?_⟩
    · show ("Restart=always").data <:+: (generateInstallScript m).data
      rw [hgen]
      simp only [String.data_append]
      exact inf_left _ (inf_right _ (inf_left _ (inf_left _ (inf_right _ (by decide)))))
    · show ("RestartSec=10").data <:+: (generateInstallScript m).data
      rw [hgen]
      simp only [String.data_append]
      exact inf_left _ (inf_right _ (inf_left _ (inf_left _ (inf_right _ (by decide)))))
    · show ("ExecStart=/usr/bin/npm start").data <:+: (generateInstallScript m).data
      rw [hgen]
      simp only [String.data_append]
      exact inf_left _ (inf_right _ (inf_left _ (inf_left _ (inf_left _
        (inf_right _ (by decide))))))
  · intro h
    have hgen : generateInstallScript m =
        scriptHdrA ++ m.name ++ scriptHdrB ++ m.source.owner ++ "/" ++ m.source.repo ++
          scriptMid ++ pyDeps ++ cloneA ++ m.source.branch ++ cloneB ++ m.source.owner ++
          "/" ++ m.source.repo ++ cloneC ++ m.slug ++ cloneD ++ m.slug ++ cloneE ++
          pyBuild ++ "\n" ++
          (sbA ++ m.slug ++ sbB ++ m.name ++ sbC ++ m.slug ++ sbD ++
            ("ExecStart=/opt/" ++ m.slug ++ "/venv/bin/python -m app") ++ sbE ++ m.slug ++
            sbF) ++
          scriptTail := by
      unfold generateInstallScript
      rw [h]
      rfl
    refine ⟨?_, ?_, ?_⟩
    · show ("Restart=always").data <:+: (generateInstallScript m).data
      rw [hgen]
      simp only [String.data_append]
      exact inf_left _ (inf_right _ (inf_left _ (inf_left _ (inf_right _ (by decide)))))
    · show ("RestartSec=10").data <:+: (generateInstallScript m).data
      rw [hgen]
      simp only [String.data_append]
      exact inf_left _ (inf_right _ (inf_left _ (inf_left _ (inf_right _ (by decide)))))
    · show ("ExecStart=/opt/" ++ m.slug ++ "/venv/bin/python -m app").data <:+:
        (generateInstallScript m).data
      rw [hgen]
      simp only [String.data_append]
      exact inf_left _ (inf_right _ (inf_left _ (inf_left _ (inf_left _
        (inf_right _ (List.infix_refl _))))))
  · intro h
    have hgen : generateInstallScript m =
        scriptHdrA ++ m.name ++ scriptHdrB ++ m.source.owner ++ "/" ++ m.source.repo ++
          scriptMid ++ goDeps ++ cloneA ++ m.source.branch ++ cloneB ++ m.source.owner ++
          "/" ++ m.source.repo ++ cloneC ++ m.slug ++ cloneD ++ m.slug ++ cloneE ++
          goBuild ++ "\n" ++
          (sbA ++ m.slug ++ sbB ++ m.name ++ sbC ++ m.slug ++ sbD ++
            ("ExecStart=/opt/" ++ m.slug ++ "/app") ++ sbE ++ m.slug ++ sbF) ++
          scriptTail := by
      unfold generateInstallScript
      rw [h]
      rfl
    refine ⟨?_, ?_, ?_⟩
    · show ("Restart=always").data <:+: (generateInstallScript m).data
      rw [hgen]
      simp only [String.data_append]
      exact inf_left _ (inf_right _ (inf_left _ (inf_left _ (inf_right _ (by decide)))))
    · show ("RestartSec=10").data <:+: (generateInstallScript m).data
      rw [hgen]
      simp only [String.data_append]
      exact inf_left _ (inf_right _ (inf_left _ (inf_left _ (inf_right _ (by decide)))))
    · show ("ExecStart=/opt/" ++ m.slug ++ "/app").data <:+: (generateInstallScript m).data
      rw [hgen]
      simp only [String.data_append]
      exact inf_left _ (inf_right _ (inf_left _ (inf_left _ (inf_left _
        (inf_right _ (List.infix_refl _))))))
  · intro h hname hslug howner hrepo hbranch
    have hgen : generateInstallScript m =
        scriptHdrA ++ m.name ++ scriptHdrB ++ m.source.owner ++ "/" ++ m.source.repo ++
          scriptMid ++ dockerDeps ++ cloneA ++ m.source.branch ++ cloneB ++ m.source.owner ++
          "/" ++ m.source.repo ++ cloneC ++ m.slug ++ cloneD ++ m.slug ++ cloneE ++
          (dockerBuildA ++ m.slug ++ dockerBuildB ++ m.slug ++ dockerBuildC ++ m.slug ++
            dockerBuildD) ++ "\n" ++ "" ++ scriptTail := by
      unfold generateInstallScript
      rw [h]
      rfl
    have hemp : ("" : String).data = ([] : List Char) := rfl
    have hchunks : (generateInstallScript m).data = catChunks
        [scriptHdrA.data, m.name.data, scriptHdrB.data, m.source.owner.data,
         ("/" : String).data, m.source.repo.data, scriptMidA.data, scriptMidB.data,
         dockerDepsA.data, dockerDepsB.data, dockerDepsC.data, dockerDepsD.data,
         dockerDepsE.data, dockerDepsF.data, dockerDepsG.data, dockerDepsH.data,
         cloneA.data, m.source.branch.data, cloneB.data, m.source.owner.data,
         ("/" : String).data, m.source.repo.data, cloneC.data, m.slug.data, cloneD.data,
         m.slug.data, cloneE.data, dockerBuildA1.data, dockerBuildA2.data, m.slug.data,
         dockerBuildB.data, m.slug.data, dockerBuildC.data, m.slug.data, dockerBuildD.data,
         ("\n" : String).data, scriptTail.data] := by
      rw [hgen]
      simp only [scriptMid, dockerDeps, dockerBuildA, String.data_append, hemp, catChunks,
        List.foldr_cons, List.foldr_nil, List.append_assoc, List.append_nil, List.nil_append]
    constructor
    · intro hcon
      have hsub : ['t', '='] <:+: ("Restart=always").data := by decide
      have h2 : ['t', '='] <:+: (generateInstallScript m).data := hsub.trans hcon
      rw [hchunks] at h2
      refine (not_pair_of_chunks 't' '=' _ ?_).1 h2
      intro l hl
      simp only [List.mem_cons, List.not_mem_nil, or_false] at hl
      rcases hl with rfl|rfl|rfl|rfl|rfl|rfl|rfl|rfl|rfl|rfl|rfl|rfl|rfl|rfl|rfl|rfl|rfl|rfl|rfl|rfl|rfl|rfl|rfl|rfl|rfl|rfl|rfl|rfl|rfl|rfl|rfl|rfl|rfl|rfl|rfl|rfl|rfl <;>
        first
          | exact ⟨by decide, by decide⟩
          | exact chunk_ok_of_not_mem 't' '=' _ hname
          | exact chunk_ok_of_not_mem 't' '=' _ hslug
          | exact chunk_ok_of_not_mem 't' '=' _ howner
          | exact chunk_ok_of_not_mem 't' '=' _ hrepo
          | exact chunk_ok_of_not_mem 't' '=' _ hbranch
    · intro hcon
      have hsub : ['c', '='] <:+: ("RestartSec=10").data := by decide
      have h2 : ['c', '='] <:+: (generateInstallScript m).data := hsub.trans hcon
      rw [hchunks] at h2
      refine (not_pair_of_chunks 'c' '=' _ ?_).1 h2
      intro l hl
      simp only [List.mem_cons, List.not_mem_nil, or_false] at hl
      rcases hl with rfl|rfl|rfl|rfl|rfl|rfl|rfl|rfl|rfl|rfl|rfl|rfl|rfl|rfl|rfl|rfl|rfl|rfl|rfl|rfl|rfl|rfl|rfl|rfl|rfl|rfl|rfl|rfl|rfl|rfl|rfl|rfl|rfl|rfl|rfl|rfl|rfl <;>
        first
          | exact ⟨by decide, by decide⟩
          | exact chunk_ok_of_not_mem 'c' '=' _ hname
          | exact chunk_ok_of_not_mem 'c' '=' _ hslug
          | exact chunk_ok_of_not_mem 'c' '=' _ howner
          | exact chunk_ok_of_not_mem 'c' '=' _ hrepo
          | exact chunk_ok_of_not_mem 'c' '=' _ hbranch

/-- Witness for C5 at concrete nodejs and docker manifests. -/
theorem generateInstallScript_service_spec_witness :
    (strContains (generateInstallScript (sampleManifest "nodejs")) "Restart=always" ∧
      strContains (generateInstallScript (sampleManifest "nodejs")) "RestartSec=10" ∧
      strContains (generateInstallScript (sampleManifest "nodejs"))
        "ExecStart=/usr/bin/npm start") ∧
    (¬ strContains (generateInstallScript (sampleManifest "docker")) "Restart=always" ∧
      ¬ strContains (generateInstallScript (sampleManifest "docker")) "RestartSec=10") :=
  ⟨(generateInstallScript_service_spec (sampleManifest "nodejs")).1 rfl,
    (generateInstallScript_service_spec (sampleManifest "docker")).2.2.2 rfl (by decide)
      (by decide) (by decide) (by decide) (by decide)⟩
